import Mathlib

/-!
Verification development for the kube-dns record materialization and lookup
engine (`pkg/dns/dns.go`).  The Go source is embedded shallowly: Go maps become
association lists, methods on `KubeDNS` become functions taking the state and
returning the new state, fallible functions return `Except`/`Option`.

The `TreeCache` container itself (its file is not part of the source tree;
`dns.go` only calls it) is modelled from the specification's §4.1 operation
table, with the wildcard collection pinned by the repository's own tests in
`dns_test.go` (see the doc comment on `TreeCache.wildcardExplore`).
-/

/-! ## String helpers -/

/-- Embeds `strings.TrimRight(name, ".")`: drop all trailing `'.'` characters. -/
def trimDots (cs : List Char) : List Char :=
  (cs.reverse.dropWhile (fun c => c = '.')).reverse

/-- Embeds `strings.Split(s, ".")` (on the character list of `s`): the list of
labels between dots; the empty string splits to `[""]`, like Go. -/
def splitDots : List Char → List String
  | [] => [""]
  | c :: rest =>
    if c = '.' then "" :: splitDots rest
    else
      match splitDots rest with
      | [] => [String.mk [c]]
      | s :: ss => String.mk (c :: s.data) :: ss

/-- Embeds `reverseArray` of `dns.go` (in-place reversal of a string slice). -/
def reverseArray (arr : List String) : List String := arr.reverse

/-- Embeds `strings.ToLower` for the ASCII protocol strings ("TCP"/"UDP") the
code feeds it. -/
def lowerString (s : String) : String := String.mk (s.data.map Char.toLower)

/-- Embeds `strings.Replace(ipStr, "-", ".", -1)`. -/
def dashToDots (s : String) : String :=
  String.mk (s.data.map (fun c => if c = '-' then '.' else c))

/-! ## FNV-1a hashing and hex formatting (`hash/fnv`, `fmt.Sprintf("%x", _)`) -/

/-- UTF-8 encoding of one character, as `[]byte(s)` would produce. -/
def utf8Bytes (c : Char) : List Nat :=
  let n := c.toNat
  if n < 0x80 then [n]
  else if n < 0x800 then [0xC0 ||| (n >>> 6), 0x80 ||| (n &&& 0x3F)]
  else if n < 0x10000 then
    [0xE0 ||| (n >>> 12), 0x80 ||| ((n >>> 6) &&& 0x3F), 0x80 ||| (n &&& 0x3F)]
  else
    [0xF0 ||| (n >>> 18), 0x80 ||| ((n >>> 12) &&& 0x3F),
     0x80 ||| ((n >>> 6) &&& 0x3F), 0x80 ||| (n &&& 0x3F)]

/-- The bytes `[]byte(s)` of a Go string. -/
def strBytes (s : String) : List Nat := (s.data.map utf8Bytes).flatten

/-- One step of 32-bit FNV-1a: xor the byte in, multiply by the FNV prime,
truncate to 32 bits. -/
def fnv1aStep (h b : Nat) : Nat := ((h ^^^ b) * 16777619) % 4294967296

/-- The 32-bit FNV-1a hash of a byte sequence (`fnv.New32a(); h.Write(bytes); h.Sum32()`). -/
def fnv1a32 (bytes : List Nat) : Nat := bytes.foldl fnv1aStep 2166136261

/-- Models `fmt.Sprintf("%x", n)` for an unsigned integer: minimal lowercase hex. -/
def natToHex (n : Nat) : String := String.mk (Nat.toDigits 16 n)

/-- Models `fmt.Sprintf("%x", s)` for a string: every byte as two lowercase hex digits. -/
def hexOfString (s : String) : String :=
  String.mk (((strBytes s).map (fun b => [Nat.digitChar (b / 16), Nat.digitChar (b % 16)])).flatten)

/-! ## The skydns record value -/

/-- The fields of `skymsg.Service` that `dns.go` sets (`Host`, `Port`,
`Priority`, `Weight`, `Ttl`); the remaining fields (`Text`, `Mail`,
`TargetStrip`, `Group`, `Key`) are always left at their zero values by this
code and appear as constants in `skyServiceGoString`. -/
structure SkyService where
  Host : String
  Port : Nat
  Priority : Nat
  Weight : Nat
  Ttl : Nat
  deriving DecidableEq, Repr

/-- Models `fmt.Sprintf("%v", msg)` for a `*skymsg.Service` built by `getSkyMsg`:
`&\x7bHost Port Priority Weight Text Mail Ttl TargetStrip Group Key\x7d` with the
unset fields printed as `""`, `false` and `0`. -/
def skyServiceGoString (msg : SkyService) : String :=
  "&\x7b" ++ String.intercalate " "
    [msg.Host, toString msg.Port, toString msg.Priority, toString msg.Weight,
     "", "false", toString msg.Ttl, "0", "", ""] ++ "\x7d"

/-- Embeds `getSkyMsg(ip, port)` of `dns.go`: builds the record
`{Host: ip, Port: port, Priority: 10, Weight: 10, Ttl: 30}` and the label
`fmt.Sprintf("%x", hash)` where `hash = fmt.Sprintf("%x", fnv1a32(record text))`
(note the double `%x`: the hex digits of the hash are themselves hex-encoded). -/
def getSkyMsg (ip : String) (port : Nat) : SkyService × String :=
  let msg : SkyService := { Host := ip, Port := port, Priority := 10, Weight := 10, Ttl := 30 }
  let hash := natToHex (fnv1a32 (strBytes (skyServiceGoString msg)))
  (msg, hexOfString hash)

/-! ## Association lists (Go `map`s) -/

/-- Lookup in an association list, the embedding of Go map indexing. -/
def alistGet {κ α : Type} [DecidableEq κ] (k : κ) : List (κ × α) → Option α
  | [] => none
  | (k', v) :: rest => if k' = k then some v else alistGet k rest

/-- Insert-or-replace, the embedding of Go `m[k] = v`. -/
def alistPut {κ α : Type} [DecidableEq κ] (k : κ) (v : α) : List (κ × α) → List (κ × α)
  | [] => [(k, v)]
  | (k', v') :: rest => if k' = k then (k, v) :: rest else (k', v') :: alistPut k v rest

/-- Deletion, the embedding of Go `delete(m, k)` (keys are unique by
construction, so dropping the first binding suffices). -/
def alistDrop {κ α : Type} [DecidableEq κ] (k : κ) : List (κ × α) → List (κ × α)
  | [] => []
  | (k', v') :: rest => if k' = k then rest else (k', v') :: alistDrop k rest

/-! ## TreeCache

Modelled from the spec: the `TreeCache` implementation file is not under the
source tree (only `dns.go` and its tests are), so the container is modelled
from §3 "TreeCache" and the §4.1 operation table of the spec. -/

/-- Modelled from the spec: a node has two maps, `children : label → node` and
`entries : label → record`. -/
inductive TreeCache where
  | node : List (String × TreeCache) → List (String × SkyService) → TreeCache

def TreeCache.childNodes : TreeCache → List (String × TreeCache)
  | .node cs _ => cs

def TreeCache.entries : TreeCache → List (String × SkyService)
  | .node _ es => es

/-- Modelled from the spec: `NewTreeCache()` returns a node with two empty maps. -/
def NewTreeCache : TreeCache := .node [] []

/-- Modelled from the spec: `setEntry(key, value, path…)` creates intermediate
child nodes as needed along `path` and stores `value` in the terminal node's
`entries[key]`. -/
def TreeCache.setEntry (key : String) (v : SkyService) : List String → TreeCache → TreeCache
  | [], c => .node c.childNodes (alistPut key v c.entries)
  | l :: p, c =>
    let child := (alistGet l c.childNodes).getD NewTreeCache
    .node (alistPut l (TreeCache.setEntry key v p child) c.childNodes) c.entries

/-- Modelled from the spec: `setSubCache(key, sub, path…)` creates
intermediates along `path` and sets `children[key] = sub` at the terminal node,
replacing any prior child wholesale. -/
def TreeCache.setSubCache (key : String) (sub : TreeCache) : List String → TreeCache → TreeCache
  | [], c => .node (alistPut key sub c.childNodes) c.entries
  | l :: p, c =>
    let child := (alistGet l c.childNodes).getD NewTreeCache
    .node (alistPut l (TreeCache.setSubCache key sub p child) c.childNodes) c.entries

/-- Modelled from the spec: walk `path` through `children`. -/
def TreeCache.getSubCache : List String → TreeCache → Option TreeCache
  | [], c => some c
  | l :: p, c =>
    match alistGet l c.childNodes with
    | some child => TreeCache.getSubCache p child
    | none => none

/-- Modelled from the spec: `getEntry(key, path…)` walks `path` through
`children` and returns `entries[key]` of the final node, if present. -/
def TreeCache.getEntry (key : String) (path : List String) (c : TreeCache) : Option SkyService :=
  match TreeCache.getSubCache path c with
  | some nd => alistGet key nd.entries
  | none => none

/-- Modelled from the spec: `deletePath(path…)` walks `path` through `children`
and removes the final child (both its subtree and any entry at the same key on
the parent's entries map, if present); no-op if the path does not exist. -/
def TreeCache.deletePath : List String → TreeCache → TreeCache
  | [], c => c
  | [l], c => .node (alistDrop l c.childNodes) (alistDrop l c.entries)
  | l :: l2 :: p, c =>
    match alistGet l c.childNodes with
    | some child => .node (alistPut l (TreeCache.deletePath (l2 :: p) child) c.childNodes) c.entries
    | none => c

/-- Modelled from the spec: the wildcard walk of
`getValuesForPathWithWildcards`.  A `"*"` label matches any child, a literal
label matches exactly; at the last label an entry under that key is taken in
preference to a child of that name, and a last `"*"` keeps the current
frontier.  Returns the entries found at the last label plus the matched
frontier.  The final collection (see `getValuesForPathWithWildcards`) takes
only the direct entries of the frontier nodes: the repository's tests pin this
down — `dns_test.go` expects a wildcard query on a service FQDN (and the
leading-wildcard query `*.n.ns.svc.<domain>`) to see only the service's
A-records, never the SRV entries stored in deeper nodes. -/
def TreeCache.wildcardExplore : List String → List TreeCache → List SkyService × List TreeCache
  | [], nodes => ([], nodes)
  | [l], nodes =>
    if l = "*" then ([], nodes)
    else
      ((nodes.filterMap (fun nd => alistGet l nd.entries)),
       (nodes.filterMap (fun nd =>
         match alistGet l nd.entries with
         | some _ => none
         | none => alistGet l nd.childNodes)))
  | l :: l2 :: p, nodes =>
    if l = "*" then
      TreeCache.wildcardExplore (l2 :: p) ((nodes.map (fun nd => nd.childNodes.map Prod.snd)).flatten)
    else
      TreeCache.wildcardExplore (l2 :: p) (nodes.filterMap (fun nd => alistGet l nd.childNodes))

/-- Modelled from the spec: collect every record matched by `path`, honoring
wildcard labels (final collection pinned by the tests; see
`TreeCache.wildcardExplore`). -/
def TreeCache.getValuesForPathWithWildcards (path : List String) (c : TreeCache) : List SkyService :=
  let r := TreeCache.wildcardExplore path [c]
  r.1 ++ (r.2.map (fun nd => nd.entries.map Prod.snd)).flatten

/-! ## Kubernetes API objects (the fields `dns.go` consumes) -/

structure ServicePort where
  name : String
  protocol : String
  port : Nat
  deriving DecidableEq, Repr

structure Service where
  name : String
  ns : String
  clusterIP : String
  ports : List ServicePort
  deriving DecidableEq, Repr

/-- Embeds `endpoints.HostRecord` (consumed field: `HostName`). -/
structure HostRecord where
  HostName : String
  deriving DecidableEq, Repr

structure EndpointAddress where
  ip : String
  hostname : String
  deriving DecidableEq, Repr

structure EndpointPort where
  name : String
  protocol : String
  port : Nat
  deriving DecidableEq, Repr

structure EndpointSubset where
  addresses : List EndpointAddress
  ports : List EndpointPort
  deriving DecidableEq, Repr

structure Endpoints where
  name : String
  ns : String
  annotations : List (String × String)
  subsets : List EndpointSubset
  deriving DecidableEq, Repr

/-- Embeds `kapi.IsServiceIPSet`: the cluster IP is neither the headless marker
`"None"` nor unset (spec §4.2: "cluster IP literal `None` is the canonical
marker, but any unset/unassigned IP also triggers this path"). -/
def IsServiceIPSet (s : Service) : Bool :=
  (s.clusterIP != "None") && (s.clusterIP != "")

/-- The well-known pod-hostnames annotation key,
`endpoints.PodHostnamesAnnotation` (its exact value is immaterial to the
claims; only its identity as a map key matters). -/
def podHostnamesAnnotationKey : String := "endpoints.beta.kubernetes.io/hostnames-map"

/-- A JSON decoder for the pod-hostnames annotation (`json.Unmarshal` into
`map[string]endpoints.HostRecord`).  `encoding/json` is an external library,
so the engine is parameterized over the decoder: `none` models an unmarshal
error, `some m` a successfully decoded map. -/
abbrev HostnameDecoder := String → Option (List (String × HostRecord))

/-! ## The KubeDNS state and record synthesizer -/

structure KubeDNS where
  domain : String
  domainPath : List String
  servicesStore : List ((String × String) × Service)
  endpointsStore : List ((String × String) × Endpoints)
  cache : TreeCache

/-- Embeds `NewKubeDNS` (the fields the record engine uses): `domainPath` is
the reversed label vector of the domain with trailing dots stripped. -/
def newKubeDNS (domain : String) : KubeDNS :=
  { domain := domain
    domainPath := reverseArray (splitDots (trimDots domain.data))
    servicesStore := []
    endpointsStore := []
    cache := NewTreeCache }

/-- The constant `serviceSubdomain` of `dns.go`. -/
def serviceSubdomain : String := "svc"

/-- Embeds `generateSRVRecordValue`: host is `name.ns.svc.<domain>` prefixed by
the optional CNAME labels, and the record is built by `getSkyMsg`. -/
def generateSRVRecordValue (kd : KubeDNS) (svc : Service) (portNumber : Nat)
    (labels : List String) : SkyService :=
  let host0 := String.intercalate "." [svc.name, svc.ns, serviceSubdomain, kd.domain]
  let host := labels.foldl (fun h l => l ++ "." ++ h) host0
  (getSkyMsg host portNumber).1

/-- Embeds `newPortalService`: one A-entry under the `getSkyMsg` label in a
fresh subcache, one SRV-entry per named-and-protocoled port under
`["_" ++ lower(proto), "_" ++ name]`, and the subcache installed at
`domainPath ++ ["svc", ns]` under the service name. -/
def portalSub (kd : KubeDNS) (service : Service) : TreeCache :=
  let rv := getSkyMsg service.clusterIP 0
  let sub0 := TreeCache.setEntry rv.2 rv.1 [] NewTreeCache
  service.ports.foldl (fun sc port =>
    if port.name != "" && port.protocol != "" then
      TreeCache.setEntry rv.2 (generateSRVRecordValue kd service port.port [])
        ["_" ++ lowerString port.protocol, "_" ++ port.name] sc
    else sc) sub0

def newPortalService (kd : KubeDNS) (service : Service) : KubeDNS :=
  let subCachePath := kd.domainPath ++ [serviceSubdomain, service.ns]
  { kd with cache := TreeCache.setSubCache service.name (portalSub kd service) subCachePath kd.cache }

/-- Embeds `validation.IsDNS1123Label` being error-free: at most 63 characters,
nonempty, `[a-z0-9]([-a-z0-9]*[a-z0-9])?`.  Modelled from the spec ("the
hostname is a valid DNS label"); the validation package is not under the
source tree. -/
def isAlphaNumLower (c : Char) : Bool :=
  (('a' ≤ c) && (c ≤ 'z')) || (('0' ≤ c) && (c ≤ '9'))

def isDNS1123Label (s : String) : Bool :=
  decide (s.length ≤ 63) && !s.data.isEmpty
    && s.data.all (fun c => isAlphaNumLower c || c = '-')
    && isAlphaNumLower (s.data.headD '-')
    && isAlphaNumLower (s.data.getLastD '-')

/-- Embeds `getHostname`: an explicit hostname wins; otherwise a valid
annotation hostname for the address's IP; otherwise nothing. -/
def getHostname (address : EndpointAddress) (podHostnames : List (String × HostRecord)) :
    Option String :=
  if address.hostname ≠ "" then some address.hostname
  else
    match alistGet address.ip podHostnames with
    | some hostRecord =>
      if isDNS1123Label hostRecord.HostName then some hostRecord.HostName else none
    | none => none

/-- Embeds `getPodHostnamesFromAnnotation`: absent or empty annotation yields
the empty map; a present nonempty annotation is decoded, and a decode failure
is an error (`none`). -/
def getPodHostnamesFromAnnotMap (decoder : HostnameDecoder)
    (annotations : List (String × String)) : Option (List (String × HostRecord)) :=
  match alistGet podHostnamesAnnotationKey annotations with
  | some serialized => if serialized ≠ "" then decoder serialized else some []
  | none => some []

/-- The per-address record label: explicit or annotation hostname if present,
else the `getSkyMsg` hash label. -/
def endpointLabel (podHostnames : List (String × HostRecord)) (a : EndpointAddress) : String :=
  (getHostname a podHostnames).getD (getSkyMsg a.ip 0).2

/-- The subcache built by the loop body of `generateRecordsForHeadlessService`:
for each subset, for each address, an A-entry under the endpoint label, and for
each named-and-protocoled subset port an SRV-entry below
`["_" ++ lower(proto), "_" ++ name]` whose host is the per-endpoint CNAME. -/
def buildHeadlessSub (kd : KubeDNS) (svc : Service)
    (podHostnames : List (String × HostRecord)) (subsets : List EndpointSubset)
    (sc0 : TreeCache) : TreeCache :=
  subsets.foldl (fun sc ss =>
    ss.addresses.foldl (fun sc address =>
      let rv := getSkyMsg address.ip 0
      let endpointName := (getHostname address podHostnames).getD rv.2
      let sc1 := TreeCache.setEntry endpointName rv.1 [] sc
      ss.ports.foldl (fun sc2 endpointPort =>
        if endpointPort.name != "" && endpointPort.protocol != "" then
          TreeCache.setEntry endpointName
            (generateSRVRecordValue kd svc endpointPort.port [endpointName])
            ["_" ++ lowerString endpointPort.protocol, "_" ++ endpointPort.name] sc2
        else sc2) sc1) sc) sc0

/-- Embeds `generateRecordsForHeadlessService`: parse the annotation (failure
aborts before any cache mutation), build the subcache, and swap it in at
`domainPath ++ ["svc", ns]` under the service name. -/
def generateRecordsForHeadlessService (decoder : HostnameDecoder) (kd : KubeDNS)
    (e : Endpoints) (svc : Service) : Except String KubeDNS :=
  match getPodHostnamesFromAnnotMap decoder e.annotations with
  | none => .error "invalid hostname annotation"
  | some podHostnames =>
    let sub := buildHeadlessSub kd svc podHostnames e.subsets NewTreeCache
    let subCachePath := kd.domainPath ++ [serviceSubdomain, svc.ns]
    .ok { kd with cache := TreeCache.setSubCache svc.name sub subCachePath kd.cache }

/-! ## Reconciler event handlers -/

/-- Embeds `newHeadlessService`: look the endpoints object up by
namespace/name; missing endpoints is not an error (records appear later). -/
def newHeadlessService (decoder : HostnameDecoder) (kd : KubeDNS) (service : Service) :
    Except String KubeDNS :=
  match alistGet (service.ns, service.name) kd.endpointsStore with
  | none => .ok kd
  | some e => generateRecordsForHeadlessService decoder kd e service

/-- Embeds `newService`: portal services get portal records, others go through
`newHeadlessService` (whose error `newService` discards, leaving the state
untouched). -/
def newService (decoder : HostnameDecoder) (kd : KubeDNS) (service : Service) : KubeDNS :=
  if IsServiceIPSet service then newPortalService kd service
  else
    match newHeadlessService decoder kd service with
    | .ok kd' => kd'
    | .error _ => kd

/-- Embeds `removeService`: delete the subtree at
`domainPath ++ ["svc", ns, name]`. -/
def removeService (kd : KubeDNS) (s : Service) : KubeDNS :=
  { kd with cache := TreeCache.deletePath (kd.domainPath ++ [serviceSubdomain, s.ns, s.name]) kd.cache }

/-- Embeds `updateService`: treated as an add of the new object. -/
def updateService (decoder : HostnameDecoder) (kd : KubeDNS) (_oldObj newObj : Service) : KubeDNS :=
  newService decoder kd newObj

/-- Embeds `getServiceFromEndpoints`: resolve the service by namespace/name in
the services store. -/
def getServiceFromEndpoints (kd : KubeDNS) (e : Endpoints) : Option Service :=
  alistGet (e.ns, e.name) kd.servicesStore

/-- Embeds `addDNSUsingEndpoints`: no corresponding headless service means no
work; otherwise regenerate the headless records. -/
def addDNSUsingEndpoints (decoder : HostnameDecoder) (kd : KubeDNS) (e : Endpoints) :
    Except String KubeDNS :=
  match getServiceFromEndpoints kd e with
  | none => .ok kd
  | some svc =>
    if IsServiceIPSet svc then .ok kd
    else generateRecordsForHeadlessService decoder kd e svc

/-- Embeds `handleEndpointAdd` (the error of `addDNSUsingEndpoints` is
discarded by the callback). -/
def handleEndpointAdd (decoder : HostnameDecoder) (kd : KubeDNS) (e : Endpoints) : KubeDNS :=
  match addDNSUsingEndpoints decoder kd e with
  | .ok kd' => kd'
  | .error _ => kd

/-! ## net.ParseIP (Go 1.6 `net/ip.go`) -/

/-- Embeds `dtoi`: decimal parse with the `big = 0xFFFFFF` overflow cutoff; returns
the value and the remaining characters, or `none` when there is no digit or
the accumulator reaches `big`. -/
def dtoiGo : List Char → Nat → Nat → Option (Nat × List Char)
  | [], count, n => if count = 0 then none else some (n, [])
  | c :: cs, count, n =>
    if ('0' ≤ c) && (c ≤ '9') then
      let n' := n * 10 + (c.toNat - 48)
      if n' ≥ 16777215 then none else dtoiGo cs (count + 1) n'
    else if count = 0 then none else some (n, c :: cs)

/-- Embeds `parseIPv4`: four decimal octets `≤ 255` separated by dots, consuming the
entire string.  The `Nat` argument counts the octets still to read and the
`Bool` marks the first octet (no leading dot). -/
def parseIPv4Go : Nat → Bool → List Char → Bool
  | 0, _, cs => cs.isEmpty
  | j + 1, isFirst, cs =>
    let afterDot : Option (List Char) :=
      if isFirst then some cs
      else
        match cs with
        | '.' :: rest => some rest
        | _ => none
    match afterDot with
    | none => false
    | some cs2 =>
      match dtoiGo cs2 0 0 with
      | none => false
      | some (n, rest) => if n > 255 then false else parseIPv4Go j false rest

def parseIPv4 (cs : List Char) : Bool := parseIPv4Go 4 true cs

/-- Embeds `xtoi`: hexadecimal parse with the same `big` cutoff. -/
def xtoiGo : List Char → Nat → Nat → Option (Nat × List Char)
  | [], count, n => if count = 0 then none else some (n, [])
  | c :: cs, count, n =>
    let d : Option Nat :=
      if ('0' ≤ c) && (c ≤ '9') then some (c.toNat - 48)
      else if ('a' ≤ c) && (c ≤ 'f') then some (c.toNat - 97 + 10)
      else if ('A' ≤ c) && (c ≤ 'F') then some (c.toNat - 65 + 10)
      else none
    match d with
    | some d =>
      let n' := n * 16 + d
      if n' ≥ 16777215 then none else xtoiGo cs (count + 1) n'
    | none => if count = 0 then none else some (n, c :: cs)

/-- The final checks of `parseIPv6` once the group loop stops: the whole string
must be consumed; fewer than 16 bytes requires an ellipsis, a full 16 forbids
one. -/
def finishV6 (i : Nat) (ellipsis : Option Nat) (s : List Char) : Bool :=
  if !s.isEmpty then false
  else if i < 16 then ellipsis.isSome
  else !ellipsis.isSome

/-- The group loop of `parseIPv6` (success only; the byte values are irrelevant
to `ParseIP ≠ nil`).  Arguments: fuel (each iteration consumes at least one
character, so `length + 1` never runs out), bytes filled so far, ellipsis
position, remaining characters. -/
def parseIPv6Loop : Nat → Nat → Option Nat → List Char → Bool
  | 0, _, _, _ => false
  | fuel + 1, i, ellipsis, s =>
    if i ≥ 16 then finishV6 i ellipsis s
    else
      match xtoiGo s 0 0 with
      | none => false
      | some (n, rest) =>
        if n > 0xFFFF then false
        else if rest.headD ' ' = '.' then
          -- trailing dotted-quad group
          if ellipsis.isNone && !(i = 12) then false
          else if i + 4 > 16 then false
          else if parseIPv4 s then finishV6 (i + 4) ellipsis []
          else false
        else
          if rest.isEmpty then finishV6 (i + 2) ellipsis rest
          else
            match rest with
            | ':' :: s2 =>
              if s2.isEmpty then false
              else
                match s2 with
                | ':' :: s3 =>
                  if ellipsis.isSome then false
                  else if s3.isEmpty then finishV6 (i + 2) (some (i + 2)) s3
                  else parseIPv6Loop fuel (i + 2) (some (i + 2)) s3
                | _ => parseIPv6Loop fuel (i + 2) ellipsis s2
            | _ => false

/-- Embeds `parseIPv6` (success only), including the leading-`::` special cases. -/
def parseIPv6Go (cs : List Char) : Bool :=
  match cs with
  | ':' :: ':' :: rest =>
    if rest.isEmpty then true
    else parseIPv6Loop (rest.length + 1) 0 (some 0) rest
  | _ => parseIPv6Loop (cs.length + 1) 0 none cs

/-- Embeds `net.ParseIP(s) != nil`: the first `'.'` or `':'` decides between
the IPv4 and IPv6 parser; a string with neither is no IP. -/
def parseIP (s : String) : Bool :=
  match s.data.find? (fun c => c = '.' || c = ':') with
  | some c => if c = '.' then parseIPv4 s.data else parseIPv6Go s.data
  | none => false

/-! ## The query resolver -/

inductive DNSError where
  | notFound
  | invalidIP
  deriving DecidableEq, Repr

/-- Embeds `isPodRecord`: exactly `len(domainPath) + 3` labels, `"pod"` right
after the domain, and no wildcard label. -/
def isPodRecord (kd : KubeDNS) (path : List String) : Bool :=
  decide (path.length = kd.domainPath.length + 3)
    && (path.getD kd.domainPath.length "" == "pod")
    && path.all (fun segment => segment != "*")

/-- Embeds `getPodIP`: the last label, dashes turned into dots, accepted iff
`net.ParseIP` accepts it.  (`path` is never empty when called from `Records`.) -/
def getPodIP (path : List String) : Option String :=
  let ip := dashToDots (path.getLastD "")
  if parseIP ip then some ip else none

/-- Embeds the body of `Records` after name normalization (`path` is the
reversed label vector; it is never empty when produced by `Records`). -/
def recordsPath (kd : KubeDNS) (path : List String) (exactMode : Bool) :
    Except DNSError (List SkyService) :=
  if isPodRecord kd path then
    match getPodIP path with
    | some ip => .ok [(getSkyMsg ip 0).1]
    | none => .error .invalidIP
  else if exactMode then
    let key := path.getLastD ""
    if key = "" then .ok []
    else
      match TreeCache.getEntry key path.dropLast kd.cache with
      | some record => .ok [record]
      | none => .error .notFound
  else
    let retval := TreeCache.getValuesForPathWithWildcards path kd.cache
    if retval.isEmpty then .error .notFound else .ok retval

/-- Embeds `Records(name, exact)`: strip trailing dots, split on dots, reverse,
then resolve. -/
def Records (kd : KubeDNS) (name : String) (exactMode : Bool) :
    Except DNSError (List SkyService) :=
  recordsPath kd (reverseArray (splitDots (trimDots name.data))) exactMode

/-! ## Reconciler events (for the frame and idempotence claims) -/

inductive DNSEvent where
  | svcAdd : Service → DNSEvent
  | svcUpdate : Service → Service → DNSEvent
  | svcRemove : Service → DNSEvent
  | endpointsAdd : Endpoints → DNSEvent

/-- Dispatch of the four reconciler callbacks of `dns.go`. -/
def applyEvent (decoder : HostnameDecoder) (kd : KubeDNS) : DNSEvent → KubeDNS
  | .svcAdd s => newService decoder kd s
  | .svcUpdate o n => updateService decoder kd o n
  | .svcRemove s => removeService kd s
  | .endpointsAdd e => handleEndpointAdd decoder kd e

/-- The namespace/name of the service an event concerns (for an endpoints
event, the service resolved through the services store). -/
def eventService (kd : KubeDNS) : DNSEvent → Option (String × String)
  | .svcAdd s => some (s.ns, s.name)
  | .svcUpdate _ n => some (n.ns, n.name)
  | .svcRemove s => some (s.ns, s.name)
  | .endpointsAdd e => (getServiceFromEndpoints kd e).map (fun svc => (svc.ns, svc.name))

/-- Boolean list-prefix test, used to state which entry paths an event may
touch. -/
def isPre : List String → List String → Bool
  | [], _ => true
  | _ :: _, [] => false
  | a :: as, b :: bs => (a == b) && isPre as bs

/-! ## Proof-side helper definitions -/

/-- A linear chain of single-child nodes ending in `t` (the shape `setSubCache`
builds from an empty cache). -/
def mkChain : List String → TreeCache → TreeCache
  | [], t => t
  | l :: p, t => .node [(l, mkChain p t)] []

/-- Total walk along `path`, continuing through an empty node where a child is
missing (the node `setSubCache`/`setEntry` extend at the end of `path`). -/
def subCacheAt : List String → TreeCache → TreeCache
  | [], c => c
  | l :: p, c => subCacheAt p ((alistGet l c.childNodes).getD NewTreeCache)

/-- All endpoint addresses of all subsets, in iteration order. -/
def flatAddrs (subsets : List EndpointSubset) : List EndpointAddress :=
  (subsets.map EndpointSubset.addresses).flatten

/-- A concrete portal service used by witnesses. -/
def otherFrameSvc : Service :=
  { name := "testservice", ns := "default", clusterIP := "1.2.3.4", ports := [] }

/-- A concrete named-port portal service used by witnesses. -/
def testPortalSvc : Service :=
  { name := "testservice", ns := "default", clusterIP := "1.2.3.4",
    ports := [{ name := "http", protocol := "TCP", port := 80 }] }

/-- A concrete headless service used by witnesses (cluster IP `"None"`). -/
def testHeadlessSvc : Service :=
  { name := "testservice", ns := "default", clusterIP := "None",
    ports := [{ name := "", protocol := "", port := 0 }] }

/-- A concrete endpoints object for `testHeadlessSvc`: one subset, two
hostname-free addresses, one unnamed port. -/
def testHeadlessEndpoints : Endpoints :=
  { name := "testservice", ns := "default", annotations := [],
    subsets := [{ addresses := [{ ip := "10.0.0.1", hostname := "" }, { ip := "10.0.0.2", hostname := "" }],
                  ports := [{ name := "", protocol := "TCP", port := 80 }] }] }

/-- The reconciler state after the endpoints of `testHeadlessSvc` arrive. -/
def testHeadlessKd : KubeDNS :=
  handleEndpointAdd (fun _ => none)
    { newKubeDNS "cluster.local." with
      servicesStore := [(("default", "testservice"), testHeadlessSvc)],
      endpointsStore := [(("default", "testservice"), testHeadlessEndpoints)] }
    testHeadlessEndpoints

/-- Endpoints carrying the same IP in two subsets (for the record-count
counterexample). -/
def dupHeadlessEndpoints : Endpoints :=
  { name := "testservice", ns := "default", annotations := [],
    subsets := [{ addresses := [{ ip := "10.0.0.1", hostname := "" }], ports := [] },
                { addresses := [{ ip := "10.0.0.1", hostname := "" }], ports := [] }] }

/-- The reconciler state after `dupHeadlessEndpoints` arrives. -/
def dupHeadlessKd : KubeDNS :=
  handleEndpointAdd (fun _ => none)
    { newKubeDNS "cluster.local." with
      servicesStore := [(("default", "testservice"), testHeadlessSvc)],
      endpointsStore := [(("default", "testservice"), dupHeadlessEndpoints)] }
    dupHeadlessEndpoints

/-! ## Association-list lemmas -/

theorem alistGet_put_same {κ α : Type} [DecidableEq κ] (k : κ) (v : α) (l : List (κ × α)) :
    alistGet k (alistPut k v l) = some v := by
  induction l with
  | nil => simp [alistGet, alistPut]
  | cons hd tl ih =>
    obtain ⟨k', v'⟩ := hd
    by_cases h : k' = k
    · simp [alistGet, alistPut, h]
    · simp [alistGet, alistPut, h, ih]

theorem alistGet_put_ne {κ α : Type} [DecidableEq κ] {k' k : κ} (v : α) (l : List (κ × α))
    (h : k' ≠ k) : alistGet k (alistPut k' v l) = alistGet k l := by
  induction l with
  | nil => simp [alistGet, alistPut, h]
  | cons hd tl ih =>
    obtain ⟨k₀, v₀⟩ := hd
    by_cases h0 : k₀ = k'
    · subst h0
      simp [alistGet, alistPut, h]
    · by_cases h1 : k₀ = k <;> simp [alistGet, alistPut, h0, h1, Ne.symm h, ih]

theorem alistPut_put_same {κ α : Type} [DecidableEq κ] (k : κ) (v : α) (l : List (κ × α)) :
    alistPut k v (alistPut k v l) = alistPut k v l := by
  induction l with
  | nil => simp [alistPut]
  | cons hd tl ih =>
    obtain ⟨k₀, v₀⟩ := hd
    by_cases h0 : k₀ = k
    · simp [alistPut, h0]
    · simp [alistPut, h0, ih]

theorem alistGet_drop_ne {κ α : Type} [DecidableEq κ] {k' k : κ} (l : List (κ × α))
    (h : k' ≠ k) : alistGet k (alistDrop k' l) = alistGet k l := by
  induction l with
  | nil => simp [alistDrop]
  | cons hd tl ih =>
    obtain ⟨k₀, v₀⟩ := hd
    by_cases h0 : k₀ = k'
    · subst h0
      simp [alistGet, alistDrop, h]
    · by_cases h1 : k₀ = k <;> simp [alistGet, alistDrop, h0, h1, Ne.symm h, ih]

theorem alistGet_eq_none_of_not_mem {κ α : Type} [DecidableEq κ] {k : κ} {l : List (κ × α)}
    (h : k ∉ l.map Prod.fst) : alistGet k l = none := by
  induction l with
  | nil => rfl
  | cons hd tl ih =>
    obtain ⟨k₀, v₀⟩ := hd
    simp only [List.map_cons, List.mem_cons] at h
    push_neg at h
    simp [alistGet, Ne.symm h.1, ih h.2]

theorem alistPut_of_not_mem {κ α : Type} [DecidableEq κ] {k : κ} (v : α) {l : List (κ × α)}
    (h : k ∉ l.map Prod.fst) : alistPut k v l = l ++ [(k, v)] := by
  induction l with
  | nil => rfl
  | cons hd tl ih =>
    obtain ⟨k₀, v₀⟩ := hd
    simp only [List.map_cons, List.mem_cons] at h
    push_neg at h
    simp [alistPut, h.1.symm, ih h.2]

/-! ## TreeCache structural lemmas -/

theorem entries_setEntry_cons (key : String) (v : SkyService) (l : String) (p : List String)
    (c : TreeCache) : (TreeCache.setEntry key v (l :: p) c).entries = c.entries := rfl

theorem entries_setEntry_nil (key : String) (v : SkyService) (c : TreeCache) :
    (TreeCache.setEntry key v [] c).entries = alistPut key v c.entries := rfl

theorem getSubCache_append (p q : List String) (c : TreeCache) :
    TreeCache.getSubCache (p ++ q) c =
      (TreeCache.getSubCache p c).bind (TreeCache.getSubCache q) := by
  induction p generalizing c with
  | nil => simp [TreeCache.getSubCache]
  | cons l p ih =>
    simp only [List.cons_append, TreeCache.getSubCache]
    cases alistGet l c.childNodes with
    | none => rfl
    | some child => exact ih child

theorem getSubCache_setSubCache_self (k : String) (sub : TreeCache) (p : List String)
    (c : TreeCache) :
    TreeCache.getSubCache (p ++ [k]) (TreeCache.setSubCache k sub p c) = some sub := by
  induction p generalizing c with
  | nil =>
    simp [TreeCache.getSubCache, TreeCache.setSubCache, TreeCache.childNodes,
      alistGet_put_same]
  | cons l p ih =>
    simp only [List.cons_append, TreeCache.getSubCache, TreeCache.setSubCache,
      TreeCache.childNodes, alistGet_put_same]
    exact ih _

theorem getEntry_empty (k : String) (q : List String) :
    TreeCache.getEntry k q NewTreeCache = none := by
  cases q with
  | nil => rfl
  | cons l q => rfl

theorem subCacheAt_empty (p : List String) : subCacheAt p NewTreeCache = NewTreeCache := by
  induction p with
  | nil => rfl
  | cons l p ih => simpa [subCacheAt, NewTreeCache, TreeCache.childNodes, alistGet] using ih

theorem alistGet_entries_subCacheAt (x : String) (p : List String) (c : TreeCache) :
    alistGet x (subCacheAt p c).entries = TreeCache.getEntry x p c := by
  induction p generalizing c with
  | nil => rfl
  | cons l p ih =>
    simp only [subCacheAt, TreeCache.getEntry, TreeCache.getSubCache]
    cases alistGet l c.childNodes with
    | none =>
      simp only [Option.getD_none, subCacheAt_empty]
      rfl
    | some child =>
      simpa using ih child

theorem getEntry_setEntry_self (k : String) (v : SkyService) (p : List String) (c : TreeCache) :
    TreeCache.getEntry k p (TreeCache.setEntry k v p c) = some v := by
  induction p generalizing c with
  | nil => simp [TreeCache.getEntry, TreeCache.getSubCache, TreeCache.setEntry,
      TreeCache.entries, alistGet_put_same]
  | cons l p ih =>
    simp only [TreeCache.getEntry, TreeCache.getSubCache, TreeCache.setEntry,
      TreeCache.childNodes, alistGet_put_same]
    exact ih _


theorem isPre_nil_left (xs : List String) : isPre [] xs = true := rfl

theorem getEntry_cons (k m : String) (q : List String) (c : TreeCache) :
    TreeCache.getEntry k (m :: q) c =
      match alistGet m c.childNodes with
      | some child => TreeCache.getEntry k q child
      | none => none := by
  cases h : alistGet m c.childNodes <;>
    simp [TreeCache.getEntry, TreeCache.getSubCache, h]

theorem isPre_cons_self (a : String) (as bs : List String) :
    isPre (a :: as) (a :: bs) = isPre as bs := by
  simp [isPre]

/-! ## Frame lemmas: a mutation at one service path leaves every entry whose
path is not below it untouched -/

theorem getEntry_setSubCache_frame (n : String) (sub : TreeCache) :
    ∀ (p q : List String) (k : String) (c : TreeCache),
      isPre (p ++ [n]) (q ++ [k]) = false →
      TreeCache.getEntry k q (TreeCache.setSubCache n sub p c) =
        TreeCache.getEntry k q c := by
  intro p
  induction p with
  | nil =>
    intro q k c h
    obtain ⟨ch, es⟩ := c
    cases q with
    | nil =>
      simp [TreeCache.getEntry, TreeCache.getSubCache, TreeCache.setSubCache,
        TreeCache.entries]
    | cons m q' =>
      have hnm : n ≠ m := by
        intro hEq
        subst hEq
        simp [isPre_cons_self, isPre_nil_left] at h
      rw [getEntry_cons, getEntry_cons]
      simp only [TreeCache.setSubCache, TreeCache.childNodes]
      rw [alistGet_put_ne sub ch hnm]
  | cons l p' ih =>
    intro q k c h
    obtain ⟨ch, es⟩ := c
    cases q with
    | nil =>
      simp [TreeCache.getEntry, TreeCache.getSubCache, TreeCache.setSubCache,
        TreeCache.entries]
    | cons m q' =>
      rw [getEntry_cons, getEntry_cons]
      simp only [TreeCache.setSubCache, TreeCache.childNodes]
      by_cases hm : l = m
      · subst hm
        rw [alistGet_put_same]
        have hrec : isPre (p' ++ [n]) (q' ++ [k]) = false := by
          simpa [isPre_cons_self] using h
        cases hc : alistGet l ch with
        | some ch0 =>
          simp only [hc, Option.getD_some]
          exact ih q' k ch0 hrec
        | none =>
          simp only [hc, Option.getD_none]
          rw [ih q' k NewTreeCache hrec, getEntry_empty]
      · rw [alistGet_put_ne _ ch hm]

theorem getEntry_deletePath_frame :
    ∀ (path q : List String) (k : String) (c : TreeCache),
      isPre path (q ++ [k]) = false →
      TreeCache.getEntry k q (TreeCache.deletePath path c) = TreeCache.getEntry k q c := by
  intro path
  induction path with
  | nil =>
    intro q k c h
    rfl
  | cons l rest ih =>
    intro q k c h
    obtain ⟨ch, es⟩ := c
    cases rest with
    | nil =>
      cases q with
      | nil =>
        have hlk : l ≠ k := by
          intro hEq
          subst hEq
          simp [isPre_cons_self, isPre_nil_left] at h
        simp only [TreeCache.deletePath, TreeCache.getEntry, TreeCache.getSubCache,
          TreeCache.entries]
        exact alistGet_drop_ne es hlk
      | cons m q' =>
        have hlm : l ≠ m := by
          intro hEq
          subst hEq
          simp [isPre_cons_self, isPre_nil_left] at h
        rw [getEntry_cons, getEntry_cons]
        simp only [TreeCache.deletePath, TreeCache.childNodes]
        rw [alistGet_drop_ne ch hlm]
    | cons l2 rest' =>
      cases hc : alistGet l ch with
      | none =>
        simp only [TreeCache.deletePath, TreeCache.childNodes, hc]
      | some child =>
        cases q with
        | nil =>
          simp only [TreeCache.deletePath, TreeCache.childNodes, hc, TreeCache.getEntry,
            TreeCache.getSubCache, TreeCache.entries]
        | cons m q' =>
          rw [getEntry_cons, getEntry_cons]
          simp only [TreeCache.deletePath, TreeCache.childNodes, hc]
          by_cases hm : l = m
          · subst hm
            rw [alistGet_put_same, hc]
            have hrec : isPre (l2 :: rest') (q' ++ [k]) = false := by
              simpa [isPre_cons_self] using h
            exact ih q' k child hrec
          · rw [alistGet_put_ne _ ch hm]

theorem getEntry_setEntry_frame (k' : String) (v : SkyService) :
    ∀ (p' q : List String) (k : String) (c : TreeCache),
      ¬(p' = q ∧ k' = k) →
      TreeCache.getEntry k q (TreeCache.setEntry k' v p' c) = TreeCache.getEntry k q c := by
  intro p'
  induction p' with
  | nil =>
    intro q k c h
    obtain ⟨ch, es⟩ := c
    cases q with
    | nil =>
      have hk : k' ≠ k := fun hEq => h ⟨rfl, hEq⟩
      simp only [TreeCache.setEntry, TreeCache.getEntry, TreeCache.getSubCache,
        TreeCache.entries, TreeCache.childNodes]
      exact alistGet_put_ne v es hk
    | cons m q' =>
      rw [getEntry_cons, getEntry_cons]
      rfl
  | cons l p'' ih =>
    intro q k c h
    obtain ⟨ch, es⟩ := c
    cases q with
    | nil =>
      simp [TreeCache.getEntry, TreeCache.getSubCache, TreeCache.setEntry,
        TreeCache.entries]
    | cons m q' =>
      rw [getEntry_cons, getEntry_cons]
      simp only [TreeCache.setEntry, TreeCache.childNodes]
      by_cases hm : l = m
      · subst hm
        rw [alistGet_put_same]
        have hrec : ¬(p'' = q' ∧ k' = k) := by
          rintro ⟨rfl, rfl⟩
          exact h ⟨rfl, rfl⟩
        cases hc : alistGet l ch with
        | some ch0 =>
          simp only [hc, Option.getD_some]
          exact ih q' k ch0 hrec
        | none =>
          simp only [hc, Option.getD_none]
          rw [ih q' k NewTreeCache hrec, getEntry_empty]
      · rw [alistGet_put_ne _ ch hm]

/-! ## Idempotence of subtree replacement -/

theorem setSubCache_idem (k : String) (sub : TreeCache) :
    ∀ (p : List String) (c : TreeCache),
      TreeCache.setSubCache k sub p (TreeCache.setSubCache k sub p c) =
        TreeCache.setSubCache k sub p c := by
  intro p
  induction p with
  | nil =>
    intro c
    obtain ⟨ch, es⟩ := c
    simp [TreeCache.setSubCache, TreeCache.childNodes, TreeCache.entries, alistPut_put_same]
  | cons l p' ih =>
    intro c
    obtain ⟨ch, es⟩ := c
    simp only [TreeCache.setSubCache, TreeCache.childNodes, TreeCache.entries,
      alistGet_put_same, Option.getD_some, ih, alistPut_put_same]

/-! ## Wildcard traversal lemmas -/

theorem mkChain_append (p q : List String) (t : TreeCache) :
    mkChain (p ++ q) t = mkChain p (mkChain q t) := by
  induction p with
  | nil => rfl
  | cons l p ih => simp [mkChain, ih]

theorem setSubCache_empty_eq_mkChain (k : String) (sub : TreeCache) (p : List String) :
    TreeCache.setSubCache k sub p NewTreeCache = mkChain p (.node [(k, sub)] []) := by
  induction p with
  | nil => rfl
  | cons l p ih =>
    have ih' : TreeCache.setSubCache k sub p (TreeCache.node [] []) =
        mkChain p (TreeCache.node [(k, sub)] []) := ih
    simp [TreeCache.setSubCache, NewTreeCache, TreeCache.childNodes, TreeCache.entries,
      alistGet, alistPut, mkChain, ih']

theorem wildcardExplore_chain (q : List String) (hq : q ≠ []) :
    ∀ (p : List String) (t : TreeCache),
      TreeCache.wildcardExplore (p ++ q) [mkChain p t] = TreeCache.wildcardExplore q [t] := by
  intro p
  induction p with
  | nil => intro t; rfl
  | cons l p' ih =>
    intro t
    cases hpq : p' ++ q with
    | nil => exact absurd (List.append_eq_nil.mp hpq).2 hq
    | cons a r =>
      have hstep : TreeCache.wildcardExplore (l :: p' ++ q) [mkChain (l :: p') t] =
          TreeCache.wildcardExplore (p' ++ q) [mkChain p' t] := by
        simp only [List.cons_append, hpq]
        by_cases hl : l = "*"
        · subst hl
          simp [TreeCache.wildcardExplore, mkChain, TreeCache.childNodes]
        · simp [TreeCache.wildcardExplore, hl, mkChain, TreeCache.childNodes, alistGet]
      rw [hstep]
      exact ih t

theorem wildcardExplore_setSubCache (q : List String) (hq : q ≠ []) (k : String)
    (sub : TreeCache) :
    ∀ (p : List String) (c : TreeCache), "*" ∉ p →
      TreeCache.wildcardExplore (p ++ q) [TreeCache.setSubCache k sub p c] =
        TreeCache.wildcardExplore q
          [.node (alistPut k sub (subCacheAt p c).childNodes) (subCacheAt p c).entries] := by
  intro p
  induction p with
  | nil =>
    intro c _
    obtain ⟨ch, es⟩ := c
    rfl
  | cons l p' ih =>
    intro c hstar
    have hl : l ≠ "*" := fun hEq => hstar (hEq ▸ List.mem_cons_self l p')
    have hstar' : "*" ∉ p' := fun hmem => hstar (List.mem_cons_of_mem l hmem)
    obtain ⟨ch, es⟩ := c
    cases hpq : p' ++ q with
    | nil => exact absurd (List.append_eq_nil.mp hpq).2 hq
    | cons a r =>
      have hstep : TreeCache.wildcardExplore ((l :: p') ++ q)
            [TreeCache.setSubCache k sub (l :: p') (.node ch es)] =
          TreeCache.wildcardExplore (p' ++ q)
            [TreeCache.setSubCache k sub p' ((alistGet l ch).getD NewTreeCache)] := by
        simp only [List.cons_append, hpq]
        simp [TreeCache.wildcardExplore, hl, TreeCache.setSubCache, TreeCache.childNodes,
          alistGet_put_same]
      rw [hstep, ih _ hstar']
      rfl

/-! ## Entries of the synthesized subcaches -/

theorem entries_foldl_invariant {β : Type} (f : TreeCache → β → TreeCache)
    (hf : ∀ sc b, (f sc b).entries = sc.entries) :
    ∀ (l : List β) (sc : TreeCache), (l.foldl f sc).entries = sc.entries := by
  intro l
  induction l with
  | nil => intro sc; rfl
  | cons b l ih => intro sc; rw [List.foldl_cons, ih, hf]

theorem entries_srvPortsFold (kd : KubeDNS) (svc : Service) (endpointName : String)
    (ports : List EndpointPort) (sc : TreeCache) :
    (ports.foldl (fun sc2 endpointPort =>
      if endpointPort.name != "" && endpointPort.protocol != "" then
        TreeCache.setEntry endpointName
          (generateSRVRecordValue kd svc endpointPort.port [endpointName])
          ["_" ++ lowerString endpointPort.protocol, "_" ++ endpointPort.name] sc2
      else sc2) sc).entries = sc.entries := by
  apply entries_foldl_invariant
  intro sc2 p
  by_cases hp : p.name != "" && p.protocol != ""
  · simp [hp, entries_setEntry_cons]
  · simp [hp]

theorem buildHeadlessSub_addrFold_entries (kd : KubeDNS) (svc : Service)
    (podHostnames : List (String × HostRecord)) (ss : EndpointSubset) :
    ∀ (addrs : List EndpointAddress) (sc : TreeCache),
      ((addrs.foldl (fun sc address =>
        let rv := getSkyMsg address.ip 0
        let endpointName := (getHostname address podHostnames).getD rv.2
        let sc1 := TreeCache.setEntry endpointName rv.1 [] sc
        ss.ports.foldl (fun sc2 endpointPort =>
          if endpointPort.name != "" && endpointPort.protocol != "" then
            TreeCache.setEntry endpointName
              (generateSRVRecordValue kd svc endpointPort.port [endpointName])
              ["_" ++ lowerString endpointPort.protocol, "_" ++ endpointPort.name] sc2
          else sc2) sc1) sc).entries) =
      addrs.foldl (fun es a =>
        alistPut (endpointLabel podHostnames a) (getSkyMsg a.ip 0).1 es) sc.entries := by
  intro addrs
  induction addrs with
  | nil => intro sc; rfl
  | cons a addrs ih =>
    intro sc
    rw [List.foldl_cons, List.foldl_cons, ih, entries_srvPortsFold,
      entries_setEntry_nil]
    rfl

theorem buildHeadlessSub_entries (kd : KubeDNS) (svc : Service)
    (podHostnames : List (String × HostRecord)) :
    ∀ (subsets : List EndpointSubset) (sc : TreeCache),
      (buildHeadlessSub kd svc podHostnames subsets sc).entries =
        (flatAddrs subsets).foldl (fun es a =>
          alistPut (endpointLabel podHostnames a) (getSkyMsg a.ip 0).1 es) sc.entries := by
  intro subsets
  induction subsets with
  | nil => intro sc; rfl
  | cons ss subsets ih =>
    intro sc
    rw [show buildHeadlessSub kd svc podHostnames (ss :: subsets) sc =
        buildHeadlessSub kd svc podHostnames subsets
          (ss.addresses.foldl (fun sc address =>
            let rv := getSkyMsg address.ip 0
            let endpointName := (getHostname address podHostnames).getD rv.2
            let sc1 := TreeCache.setEntry endpointName rv.1 [] sc
            ss.ports.foldl (fun sc2 endpointPort =>
              if endpointPort.name != "" && endpointPort.protocol != "" then
                TreeCache.setEntry endpointName
                  (generateSRVRecordValue kd svc endpointPort.port [endpointName])
                  ["_" ++ lowerString endpointPort.protocol, "_" ++ endpointPort.name] sc2
              else sc2) sc1) sc) from rfl]
    rw [ih, buildHeadlessSub_addrFold_entries kd svc podHostnames ss ss.addresses sc]
    rw [show flatAddrs (ss :: subsets) = ss.addresses ++ flatAddrs subsets by
      simp [flatAddrs]]
    rw [List.foldl_append]

theorem foldl_alistPut_fresh {α : Type} (f : α → String) (g : α → SkyService) :
    ∀ (xs : List α) (es : List (String × SkyService)),
      (xs.map f).Nodup → (∀ a ∈ xs, f a ∉ es.map Prod.fst) →
      xs.foldl (fun es a => alistPut (f a) (g a) es) es =
        es ++ xs.map (fun a => (f a, g a)) := by
  intro xs
  induction xs with
  | nil => intro es _ _; simp
  | cons x xs ih =>
    intro es hnd hfresh
    rw [List.foldl_cons, alistPut_of_not_mem _ (hfresh x (List.mem_cons_self x xs))]
    rw [ih (es ++ [(f x, g x)]) (by simpa using hnd.of_cons)]
    · simp
    · intro a ha
      simp only [List.map_append, List.mem_append, List.map_cons]
      rintro (hmem | hmem)
      · exact hfresh a (List.mem_cons_of_mem x ha) hmem
      · simp only [List.map_nil, List.mem_singleton] at hmem
        have : f a ≠ f x := by
          simp only [List.map_cons, List.nodup_cons] at hnd
          intro hEq
          exact hnd.1 (hEq ▸ List.mem_map_of_mem f ha)
        exact this hmem

theorem alistGet_map_of_mem {α : Type} (f : α → String) (g : α → SkyService) :
    ∀ (xs : List α) (a : α), (xs.map f).Nodup → a ∈ xs →
      alistGet (f a) (xs.map (fun a => (f a, g a))) = some (g a) := by
  intro xs
  induction xs with
  | nil => intro a _ ha; cases ha
  | cons x xs ih =>
    intro a hnd ha
    simp only [List.map_cons, List.nodup_cons] at hnd
    rcases List.mem_cons.mp ha with rfl | ha'
    · simp [alistGet]
    · have hne : f x ≠ f a := by
        intro hEq
        exact hnd.1 (hEq ▸ List.mem_map_of_mem f ha')
      simp only [List.map_cons, alistGet, hne, if_neg hne]
      exact ih a hnd.2 ha'

/-! ## Resolver dispatch lemmas -/

theorem recordsPath_pod (kd : KubeDNS) (path : List String) (exactMode : Bool)
    (h : isPodRecord kd path = true) :
    recordsPath kd path exactMode =
      match getPodIP path with
      | some ip => .ok [(getSkyMsg ip 0).1]
      | none => .error .invalidIP := by
  simp only [recordsPath, h, if_true]

theorem recordsPath_nonPod (kd : KubeDNS) (path : List String) (exactMode : Bool)
    (h : isPodRecord kd path = false) :
    recordsPath kd path exactMode =
      if exactMode then
        (if path.getLastD "" = "" then .ok []
         else
           match TreeCache.getEntry (path.getLastD "") path.dropLast kd.cache with
           | some record => .ok [record]
           | none => .error .notFound)
      else
        (if (TreeCache.getValuesForPathWithWildcards path kd.cache).isEmpty then
           .error .notFound
         else .ok (TreeCache.getValuesForPathWithWildcards path kd.cache)) := by
  simp only [recordsPath, h, Bool.false_eq_true, if_false]

/-! ## Claim theorems -/

/-- Claim C9: a pod-shaped query (`len(D)+3` labels, `"pod"` after the domain,
no wildcard) never consults the TreeCache: `Records` answers identically over
any two cache states, and a last label that does not parse as an IP yields the
invalid-IP error no matter what the cache holds at that path. -/
theorem podQuery_cacheIndependent (kd : KubeDNS) (c1 c2 : TreeCache) (name : String)
    (exactMode : Bool)
    (h : isPodRecord kd (reverseArray (splitDots (trimDots name.data))) = true) :
    Records { kd with cache := c1 } name exactMode =
      Records { kd with cache := c2 } name exactMode ∧
    (getPodIP (reverseArray (splitDots (trimDots name.data))) = none →
      Records { kd with cache := c1 } name exactMode = .error .invalidIP) := by
  have h1 : isPodRecord { kd with cache := c1 }
      (reverseArray (splitDots (trimDots name.data))) = true := h
  have h2 : isPodRecord { kd with cache := c2 }
      (reverseArray (splitDots (trimDots name.data))) = true := h
  constructor
  · rw [Records, Records, recordsPath_pod _ _ _ h1, recordsPath_pod _ _ _ h2]
  · intro h0
    rw [Records, recordsPath_pod _ _ _ h1, h0]

/-- Witness for C9 at a concrete input: the pod query `1-2-x.default.pod...`
(invalid IP) errors identically over the empty cache and over a cache that
stores a record at exactly that path. -/
theorem podQuery_cacheIndependent_witness :
    (isPodRecord (newKubeDNS "cluster.local.")
      (reverseArray (splitDots (trimDots "1-2-x.default.pod.cluster.local.".data))) = true) ∧
    (Records { newKubeDNS "cluster.local." with
        cache := TreeCache.setEntry "1-2-x"
          { Host := "9.9.9.9", Port := 0, Priority := 10, Weight := 10, Ttl := 30 }
          ["local", "cluster", "pod", "default"] NewTreeCache }
        "1-2-x.default.pod.cluster.local." false =
      Records { newKubeDNS "cluster.local." with cache := NewTreeCache }
        "1-2-x.default.pod.cluster.local." false) ∧
    (Records { newKubeDNS "cluster.local." with
        cache := TreeCache.setEntry "1-2-x"
          { Host := "9.9.9.9", Port := 0, Priority := 10, Weight := 10, Ttl := 30 }
          ["local", "cluster", "pod", "default"] NewTreeCache }
        "1-2-x.default.pod.cluster.local." false = .error .invalidIP) :=
  ⟨by decide,
   (podQuery_cacheIndependent (newKubeDNS "cluster.local.")
     (TreeCache.setEntry "1-2-x"
       { Host := "9.9.9.9", Port := 0, Priority := 10, Weight := 10, Ttl := 30 }
       ["local", "cluster", "pod", "default"] NewTreeCache)
     NewTreeCache "1-2-x.default.pod.cluster.local." false (by decide)).1,
   (podQuery_cacheIndependent (newKubeDNS "cluster.local.")
     (TreeCache.setEntry "1-2-x"
       { Host := "9.9.9.9", Port := 0, Priority := 10, Weight := 10, Ttl := 30 }
       ["local", "cluster", "pod", "default"] NewTreeCache)
     NewTreeCache "1-2-x.default.pod.cluster.local." false (by decide)).2 (by decide)⟩

/-- Claim C5 (amended): for a pod-shaped query the last label with dashes
replaced by dots is handed to Go's `net.ParseIP`, which accepts IPv4 dotted
quads and also IPv6 literals: on success `Records` returns exactly one record
with that string as host and port 0, on failure the invalid-IP error. -/
theorem podQuery_parseIP (kd : KubeDNS) (name : String) (exactMode : Bool)
    (h : isPodRecord kd (reverseArray (splitDots (trimDots name.data))) = true) :
    (parseIP (dashToDots ((reverseArray (splitDots (trimDots name.data))).getLastD "")) = true →
      Records kd name exactMode =
        .ok [{ Host := dashToDots ((reverseArray (splitDots (trimDots name.data))).getLastD ""),
               Port := 0, Priority := 10, Weight := 10, Ttl := 30 }]) ∧
    (parseIP (dashToDots ((reverseArray (splitDots (trimDots name.data))).getLastD "")) = false →
      Records kd name exactMode = .error .invalidIP) := by
  rw [Records, recordsPath_pod _ _ _ h]
  constructor
  · intro hp
    simp only [getPodIP]
    rw [if_pos hp]
    rfl
  · intro hp
    simp only [getPodIP]
    rw [if_neg (by rw [hp]; simp)]

/-- Witness for C5 at a concrete input: `10-0-0-1.kube-system.pod.cluster.local.`
resolves to host `10.0.0.1`, and `10-0-0-256...` fails with invalid-IP. -/
theorem podQuery_parseIP_witness :
    (isPodRecord (newKubeDNS "cluster.local.")
      (reverseArray (splitDots (trimDots "10-0-0-1.kube-system.pod.cluster.local.".data))) = true) ∧
    (parseIP (dashToDots ((reverseArray (splitDots
        (trimDots "10-0-0-1.kube-system.pod.cluster.local.".data))).getLastD "")) = true) ∧
    (Records (newKubeDNS "cluster.local.") "10-0-0-1.kube-system.pod.cluster.local." false =
      .ok [{ Host := "10.0.0.1", Port := 0, Priority := 10, Weight := 10, Ttl := 30 }]) ∧
    (Records (newKubeDNS "cluster.local.") "10-0-0-256.kube-system.pod.cluster.local." false =
      .error .invalidIP) :=
  ⟨by decide, by decide,
   (podQuery_parseIP (newKubeDNS "cluster.local.")
     "10-0-0-1.kube-system.pod.cluster.local." false (by decide)).1 (by decide),
   (podQuery_parseIP (newKubeDNS "cluster.local.")
     "10-0-0-256.kube-system.pod.cluster.local." false (by decide)).2 (by decide)⟩

/-- Counterexample to C5 as frozen: the label `::1` does not parse as an IPv4
address (dash decoding leaves it unchanged and `parseIPv4` rejects it), yet
`Records` does not fail with invalid-IP — `net.ParseIP` accepts it as IPv6 and
a record with host `::1` is returned. -/
theorem podQuery_ipv6_counterexample :
    parseIPv4 (dashToDots "::1").data = false ∧
    Records (newKubeDNS "cluster.local.") "::1.default.pod.cluster.local." false =
      .ok [{ Host := "::1", Port := 0, Priority := 10, Weight := 10, Ttl := 30 }] := by
  constructor
  · decide
  · rfl

/-- Claim C6: for a non-pod-shaped query, exact mode returns `[]` when the
final label is empty, the unique `getEntry` hit when there is one, and the
not-found error otherwise; wildcard mode fails with not-found exactly when the
traversal collects nothing and otherwise returns everything it collected. -/
theorem records_nonPod_modes (kd : KubeDNS) (name : String)
    (h : isPodRecord kd (reverseArray (splitDots (trimDots name.data))) = false) :
    (((reverseArray (splitDots (trimDots name.data))).getLastD "" = "" →
        Records kd name true = .ok []) ∧
     (∀ r, TreeCache.getEntry ((reverseArray (splitDots (trimDots name.data))).getLastD "")
          (reverseArray (splitDots (trimDots name.data))).dropLast kd.cache = some r →
        (reverseArray (splitDots (trimDots name.data))).getLastD "" ≠ "" →
        Records kd name true = .ok [r]) ∧
     (TreeCache.getEntry ((reverseArray (splitDots (trimDots name.data))).getLastD "")
          (reverseArray (splitDots (trimDots name.data))).dropLast kd.cache = none →
        (reverseArray (splitDots (trimDots name.data))).getLastD "" ≠ "" →
        Records kd name true = .error .notFound)) ∧
    ((TreeCache.getValuesForPathWithWildcards
          (reverseArray (splitDots (trimDots name.data))) kd.cache = [] →
        Records kd name false = .error .notFound) ∧
     (TreeCache.getValuesForPathWithWildcards
          (reverseArray (splitDots (trimDots name.data))) kd.cache ≠ [] →
        Records kd name false =
          .ok (TreeCache.getValuesForPathWithWildcards
            (reverseArray (splitDots (trimDots name.data))) kd.cache))) := by
  refine ⟨⟨?_, ?_, ?_⟩, ?_, ?_⟩
  · intro hkey
    rw [Records, recordsPath_nonPod _ _ _ h, if_pos (by rfl : (true : Bool) = true),
      if_pos hkey]
  · intro r hget hkey
    rw [Records, recordsPath_nonPod _ _ _ h, if_pos (by rfl : (true : Bool) = true),
      if_neg hkey, hget]
  · intro hget hkey
    rw [Records, recordsPath_nonPod _ _ _ h, if_pos (by rfl : (true : Bool) = true),
      if_neg hkey, hget]
  · intro hvals
    rw [Records, recordsPath_nonPod _ _ _ h, hvals]
    rfl
  · intro hvals
    cases hv : TreeCache.getValuesForPathWithWildcards
        (reverseArray (splitDots (trimDots name.data))) kd.cache with
    | nil => exact absurd hv hvals
    | cons x xs =>
      rw [Records, recordsPath_nonPod _ _ _ h, hv]
      rfl

/-- Witness for C6 at concrete inputs, exercising the entry-hit and both
not-found branches on a one-entry cache. -/
theorem records_nonPod_modes_witness :
    (isPodRecord { newKubeDNS "cluster.local." with
        cache := TreeCache.setEntry "myentry"
          { Host := "1.2.3.4", Port := 0, Priority := 10, Weight := 10, Ttl := 30 }
          ["local", "cluster", "svc", "default"] NewTreeCache }
      (reverseArray (splitDots (trimDots "myentry.default.svc.cluster.local.".data))) = false) ∧
    (Records { newKubeDNS "cluster.local." with
        cache := TreeCache.setEntry "myentry"
          { Host := "1.2.3.4", Port := 0, Priority := 10, Weight := 10, Ttl := 30 }
          ["local", "cluster", "svc", "default"] NewTreeCache }
      "myentry.default.svc.cluster.local." true =
      .ok [{ Host := "1.2.3.4", Port := 0, Priority := 10, Weight := 10, Ttl := 30 }]) :=
  ⟨by decide,
   (records_nonPod_modes _ "myentry.default.svc.cluster.local." (by decide)).1.2.1
     { Host := "1.2.3.4", Port := 0, Priority := 10, Weight := 10, Ttl := 30 }
     (by decide) (by decide)⟩

/-- Claim C7: an endpoints object whose pod-hostnames annotation fails to
decode makes headless synthesis return an error before any cache mutation, and
the endpoints-add callback leaves the whole reconciler state (cache included,
and with it the failing service's existing subtree) exactly as it was. -/
theorem invalidAnnotation_preservesState (decoder : HostnameDecoder) (kd : KubeDNS)
    (e : Endpoints) (svc : Service) (a : String)
    (h1 : alistGet podHostnamesAnnotationKey e.annotations = some a)
    (h2 : a ≠ "") (h3 : decoder a = none) :
    generateRecordsForHeadlessService decoder kd e svc =
      .error "invalid hostname annotation" ∧
    handleEndpointAdd decoder kd e = kd := by
  have hparse : getPodHostnamesFromAnnotMap decoder e.annotations = none := by
    simp [getPodHostnamesFromAnnotMap, h1, h2, h3]
  have hgen : ∀ s : Service, generateRecordsForHeadlessService decoder kd e s =
      .error "invalid hostname annotation" := by
    intro s
    simp [generateRecordsForHeadlessService, hparse]
  refine ⟨hgen svc, ?_⟩
  simp only [handleEndpointAdd, addDNSUsingEndpoints]
  cases hsvc : getServiceFromEndpoints kd e with
  | none => rfl
  | some s =>
    by_cases hip : IsServiceIPSet s
    · simp [hip]
    · simp [hip, hgen s]

/-- Witness for C7 at a concrete input: a headless service whose live subtree
came from a good endpoints object survives, byte for byte, a later endpoints
event carrying a malformed annotation. -/
theorem invalidAnnotation_preservesState_witness :
    (alistGet podHostnamesAnnotationKey
      [(podHostnamesAnnotationKey, "not json")] = some "not json") ∧
    ("not json" ≠ "") ∧
    ((fun _ => none : HostnameDecoder) "not json" = none) ∧
    (generateRecordsForHeadlessService (fun _ => none)
      (newKubeDNS "cluster.local.")
      { name := "testservice", ns := "default",
        annotations := [(podHostnamesAnnotationKey, "not json")],
        subsets := [{ addresses := [{ ip := "10.0.0.1", hostname := "" }], ports := [] }] }
      { name := "testservice", ns := "default", clusterIP := "None", ports := [] } =
      .error "invalid hostname annotation") ∧
    (handleEndpointAdd (fun _ => none) (newKubeDNS "cluster.local.")
      { name := "testservice", ns := "default",
        annotations := [(podHostnamesAnnotationKey, "not json")],
        subsets := [{ addresses := [{ ip := "10.0.0.1", hostname := "" }], ports := [] }] } =
      newKubeDNS "cluster.local.") :=
  ⟨by decide, by decide, rfl,
   (invalidAnnotation_preservesState (fun _ => none) (newKubeDNS "cluster.local.")
     { name := "testservice", ns := "default",
       annotations := [(podHostnamesAnnotationKey, "not json")],
       subsets := [{ addresses := [{ ip := "10.0.0.1", hostname := "" }], ports := [] }] }
     { name := "testservice", ns := "default", clusterIP := "None", ports := [] }
     "not json" (by decide) (by decide) rfl).1,
   (invalidAnnotation_preservesState (fun _ => none) (newKubeDNS "cluster.local.")
     { name := "testservice", ns := "default",
       annotations := [(podHostnamesAnnotationKey, "not json")],
       subsets := [{ addresses := [{ ip := "10.0.0.1", hostname := "" }], ports := [] }] }
     { name := "testservice", ns := "default", clusterIP := "None", ports := [] }
     "not json" (by decide) (by decide) rfl).2⟩

/-! ## Cache shape of the two service-add paths -/

theorem newService_portal_cache (decoder : HostnameDecoder) (kd : KubeDNS) (s : Service)
    (hip : IsServiceIPSet s = true) :
    newService decoder kd s =
      { kd with cache := (TreeCache.setSubCache s.name (portalSub kd s)
          (kd.domainPath ++ [serviceSubdomain, s.ns]) kd.cache) } := by
  simp only [newService, hip]
  rfl

theorem newService_headless_noEndpoints (decoder : HostnameDecoder) (kd : KubeDNS)
    (s : Service) (hip : IsServiceIPSet s = false)
    (hlook : alistGet (s.ns, s.name) kd.endpointsStore = none) :
    newService decoder kd s = kd := by
  simp only [newService, hip, Bool.false_eq_true, if_false, newHeadlessService, hlook]

theorem newService_headless_badAnnot (decoder : HostnameDecoder) (kd : KubeDNS)
    (s : Service) (e : Endpoints) (hip : IsServiceIPSet s = false)
    (hlook : alistGet (s.ns, s.name) kd.endpointsStore = some e)
    (hann : getPodHostnamesFromAnnotMap decoder e.annotations = none) :
    newService decoder kd s = kd := by
  simp only [newService, hip, Bool.false_eq_true, if_false, newHeadlessService, hlook,
    generateRecordsForHeadlessService, hann]

theorem newService_headless_cache (decoder : HostnameDecoder) (kd : KubeDNS)
    (s : Service) (e : Endpoints) (ph : List (String × HostRecord))
    (hip : IsServiceIPSet s = false)
    (hlook : alistGet (s.ns, s.name) kd.endpointsStore = some e)
    (hann : getPodHostnamesFromAnnotMap decoder e.annotations = some ph) :
    newService decoder kd s =
      { kd with cache := (TreeCache.setSubCache s.name
          (buildHeadlessSub kd s ph e.subsets NewTreeCache)
          (kd.domainPath ++ [serviceSubdomain, s.ns]) kd.cache) } := by
  simp only [newService, hip, Bool.false_eq_true, if_false, newHeadlessService, hlook,
    generateRecordsForHeadlessService, hann]

/-- Claim C8: a service add event (portal, or headless whether or not its
endpoints are known) is idempotent: applying it twice to any starting state
yields exactly the state after one application, because each add installs a
wholesale-built subcache at `domainPath ++ ["svc", ns]` under the service name. -/
theorem addEvent_idempotent (decoder : HostnameDecoder) (kd : KubeDNS) (s : Service) :
    newService decoder (newService decoder kd s) s = newService decoder kd s := by
  by_cases hip : IsServiceIPSet s = true
  · have e1 := newService_portal_cache decoder kd s hip
    have e2 := newService_portal_cache decoder
      { kd with cache := (TreeCache.setSubCache s.name (portalSub kd s)
          (kd.domainPath ++ [serviceSubdomain, s.ns]) kd.cache) } s hip
    rw [e1]
    rw [e2]
    rw [show portalSub { kd with cache := (TreeCache.setSubCache s.name (portalSub kd s)
          (kd.domainPath ++ [serviceSubdomain, s.ns]) kd.cache) } s = portalSub kd s from rfl]
    rw [setSubCache_idem]
  · have hip' : IsServiceIPSet s = false := by
      cases h0 : IsServiceIPSet s with
      | true => exact absurd h0 hip
      | false => rfl
    cases hlook : alistGet (s.ns, s.name) kd.endpointsStore with
    | none =>
      have e1 := newService_headless_noEndpoints decoder kd s hip' hlook
      rw [e1]
      exact e1
    | some e =>
      cases hann : getPodHostnamesFromAnnotMap decoder e.annotations with
      | none =>
        have e1 := newService_headless_badAnnot decoder kd s e hip' hlook hann
        rw [e1]
        exact e1
      | some ph =>
        have e1 := newService_headless_cache decoder kd s e ph hip' hlook hann
        have e2 := newService_headless_cache decoder
          { kd with cache := (TreeCache.setSubCache s.name
              (buildHeadlessSub kd s ph e.subsets NewTreeCache)
              (kd.domainPath ++ [serviceSubdomain, s.ns]) kd.cache) } s e ph hip' hlook hann
        rw [e1]
        rw [e2]
        rw [show buildHeadlessSub { kd with cache := (TreeCache.setSubCache s.name
              (buildHeadlessSub kd s ph e.subsets NewTreeCache)
              (kd.domainPath ++ [serviceSubdomain, s.ns]) kd.cache) } s ph e.subsets NewTreeCache =
            buildHeadlessSub kd s ph e.subsets NewTreeCache from rfl]
        rw [setSubCache_idem]

theorem newService_cache_frame (decoder : HostnameDecoder) (kd : KubeDNS) (s : Service)
    (q : List String) (k : String)
    (hpre : isPre (kd.domainPath ++ [serviceSubdomain, s.ns, s.name]) (q ++ [k]) = false) :
    TreeCache.getEntry k q (newService decoder kd s).cache =
      TreeCache.getEntry k q kd.cache := by
  have happ : (kd.domainPath ++ [serviceSubdomain, s.ns]) ++ [s.name] =
      kd.domainPath ++ [serviceSubdomain, s.ns, s.name] := by simp
  by_cases hip : IsServiceIPSet s = true
  · rw [newService_portal_cache decoder kd s hip]
    exact getEntry_setSubCache_frame s.name _ _ q k kd.cache (by rw [happ]; exact hpre)
  · have hip' : IsServiceIPSet s = false := by
      cases h0 : IsServiceIPSet s with
      | true => exact absurd h0 hip
      | false => rfl
    cases hlook : alistGet (s.ns, s.name) kd.endpointsStore with
    | none => rw [newService_headless_noEndpoints decoder kd s hip' hlook]
    | some e =>
      cases hann : getPodHostnamesFromAnnotMap decoder e.annotations with
      | none => rw [newService_headless_badAnnot decoder kd s e hip' hlook hann]
      | some ph =>
        rw [newService_headless_cache decoder kd s e ph hip' hlook hann]
        exact getEntry_setSubCache_frame s.name _ _ q k kd.cache (by rw [happ]; exact hpre)

theorem handleEndpointAdd_cache_frame (decoder : HostnameDecoder) (kd : KubeDNS)
    (e : Endpoints) (svc : Service) (q : List String) (k : String)
    (hlook : getServiceFromEndpoints kd e = some svc)
    (hpre : isPre (kd.domainPath ++ [serviceSubdomain, svc.ns, svc.name]) (q ++ [k]) = false) :
    TreeCache.getEntry k q (handleEndpointAdd decoder kd e).cache =
      TreeCache.getEntry k q kd.cache := by
  have happ : (kd.domainPath ++ [serviceSubdomain, svc.ns]) ++ [svc.name] =
      kd.domainPath ++ [serviceSubdomain, svc.ns, svc.name] := by simp
  by_cases hip : IsServiceIPSet svc = true
  · have hkd : handleEndpointAdd decoder kd e = kd := by
      simp only [handleEndpointAdd, addDNSUsingEndpoints, hlook, hip]
      rfl
    rw [hkd]
  · have hip' : IsServiceIPSet svc = false := by
      cases h0 : IsServiceIPSet svc with
      | true => exact absurd h0 hip
      | false => rfl
    cases hann : getPodHostnamesFromAnnotMap decoder e.annotations with
    | none =>
      have hkd : handleEndpointAdd decoder kd e = kd := by
        simp only [handleEndpointAdd, addDNSUsingEndpoints, hlook, hip', Bool.false_eq_true,
          if_false, generateRecordsForHeadlessService, hann]
      rw [hkd]
    | some ph =>
      have hkd : handleEndpointAdd decoder kd e =
          { kd with cache := (TreeCache.setSubCache svc.name
              (buildHeadlessSub kd svc ph e.subsets NewTreeCache)
              (kd.domainPath ++ [serviceSubdomain, svc.ns]) kd.cache) } := by
        simp only [handleEndpointAdd, addDNSUsingEndpoints, hlook, hip', Bool.false_eq_true,
          if_false, generateRecordsForHeadlessService, hann]
      rw [hkd]
      exact getEntry_setSubCache_frame svc.name _ _ q k kd.cache (by rw [happ]; exact hpre)

/-- Claim C10: every reconciler event concerning the service `ns`/`n`
(service add, update, remove, or an endpoints add resolving to that service)
leaves every cache entry whose full path does not lie under
`domainPath ++ ["svc", ns, n]` unchanged; an endpoints event that resolves to
no service changes nothing at all. -/
theorem event_frame (decoder : HostnameDecoder) (kd : KubeDNS) (ev : DNSEvent) :
    (∀ ns n q k, eventService kd ev = some (ns, n) →
      isPre (kd.domainPath ++ [serviceSubdomain, ns, n]) (q ++ [k]) = false →
      TreeCache.getEntry k q (applyEvent decoder kd ev).cache =
        TreeCache.getEntry k q kd.cache) ∧
    (eventService kd ev = none → applyEvent decoder kd ev = kd) := by
  cases ev with
  | svcAdd s =>
    refine ⟨?_, ?_⟩
    · intro ns n q k hsome hpre
      obtain ⟨rfl, rfl⟩ : s.ns = ns ∧ s.name = n := by
        simpa [eventService] using hsome
      exact newService_cache_frame decoder kd s q k hpre
    · intro hnone
      simp [eventService] at hnone
  | svcUpdate o s =>
    refine ⟨?_, ?_⟩
    · intro ns n q k hsome hpre
      obtain ⟨rfl, rfl⟩ : s.ns = ns ∧ s.name = n := by
        simpa [eventService] using hsome
      exact newService_cache_frame decoder kd s q k hpre
    · intro hnone
      simp [eventService] at hnone
  | svcRemove s =>
    refine ⟨?_, ?_⟩
    · intro ns n q k hsome hpre
      obtain ⟨rfl, rfl⟩ : s.ns = ns ∧ s.name = n := by
        simpa [eventService] using hsome
      exact getEntry_deletePath_frame _ q k kd.cache hpre
    · intro hnone
      simp [eventService] at hnone
  | endpointsAdd e =>
    refine ⟨?_, ?_⟩
    · intro ns n q k hsome hpre
      simp only [eventService] at hsome
      cases hlook : getServiceFromEndpoints kd e with
      | none => rw [hlook] at hsome; cases hsome
      | some svc =>
        rw [hlook] at hsome
        obtain ⟨rfl, rfl⟩ : svc.ns = ns ∧ svc.name = n := by
          simpa using hsome
        exact handleEndpointAdd_cache_frame decoder kd e svc q k hlook hpre
    · intro hnone
      simp only [eventService] at hnone
      cases hlook : getServiceFromEndpoints kd e with
      | none =>
        simp only [applyEvent, handleEndpointAdd, addDNSUsingEndpoints, hlook]
      | some svc => rw [hlook] at hnone; cases hnone

/-- Witness for C10 at a concrete input: removing `testservice` in namespace
`default` leaves the A-entry of `othersvc` in namespace `other` untouched. -/
theorem event_frame_witness :
    (eventService (newKubeDNS "cluster.local.")
      (.svcRemove otherFrameSvc) = some ("default", "testservice")) ∧
    (isPre ((newKubeDNS "cluster.local.").domainPath ++
        [serviceSubdomain, "default", "testservice"])
      (["local", "cluster", "svc", "other", "othersvc"] ++ ["entrykey"]) = false) ∧
    (TreeCache.getEntry "entrykey" ["local", "cluster", "svc", "other", "othersvc"]
      (applyEvent (fun _ => none) (newKubeDNS "cluster.local.")
        (.svcRemove otherFrameSvc)).cache =
     TreeCache.getEntry "entrykey" ["local", "cluster", "svc", "other", "othersvc"]
      (newKubeDNS "cluster.local.").cache) :=
  ⟨by decide, by decide,
   (event_frame (fun _ => none) (newKubeDNS "cluster.local.")
     (.svcRemove otherFrameSvc)).1 "default" "testservice"
     ["local", "cluster", "svc", "other", "othersvc"] "entrykey" (by decide) (by decide)⟩

theorem getEntry_append {p : List String} {c sub : TreeCache}
    (h : TreeCache.getSubCache p c = some sub) (k : String) (r : List String) :
    TreeCache.getEntry k (p ++ r) c = TreeCache.getEntry k r sub := by
  simp [TreeCache.getEntry, getSubCache_append, h]

theorem portalSub_entries (kd : KubeDNS) (s : Service) :
    (portalSub kd s).entries =
      [((getSkyMsg s.clusterIP 0).2, (getSkyMsg s.clusterIP 0).1)] := by
  have hf : ∀ (sc : TreeCache) (port : ServicePort),
      ((fun sc (port : ServicePort) =>
        if port.name != "" && port.protocol != "" then
          TreeCache.setEntry (getSkyMsg s.clusterIP 0).2
            (generateSRVRecordValue kd s port.port [])
            ["_" ++ lowerString port.protocol, "_" ++ port.name] sc
        else sc) sc port).entries = sc.entries := by
    intro sc port
    by_cases hx : (port.name != "" && port.protocol != "") = true
    · simp only [hx, if_true]
      exact entries_setEntry_cons _ _ _ _ _
    · simp only [if_neg hx]
  rw [show portalSub kd s = s.ports.foldl (fun sc port =>
      if port.name != "" && port.protocol != "" then
        TreeCache.setEntry (getSkyMsg s.clusterIP 0).2
          (generateSRVRecordValue kd s port.port [])
          ["_" ++ lowerString port.protocol, "_" ++ port.name] sc
      else sc)
      (TreeCache.setEntry (getSkyMsg s.clusterIP 0).2 (getSkyMsg s.clusterIP 0).1 []
        NewTreeCache) from rfl]
  rw [entries_foldl_invariant _ hf s.ports _]
  rfl

theorem portalFold_preserve (kd : KubeDNS) (s : Service) (lab pr nm : String) :
    ∀ (t : List ServicePort) (sc : TreeCache),
      (∀ x ∈ t, x.name ≠ "" → x.protocol ≠ "" →
        ("_" ++ lowerString x.protocol, "_" ++ x.name) ≠ (pr, nm)) →
      TreeCache.getEntry lab [pr, nm]
        (t.foldl (fun sc port =>
          if port.name != "" && port.protocol != "" then
            TreeCache.setEntry (getSkyMsg s.clusterIP 0).2
              (generateSRVRecordValue kd s port.port [])
              ["_" ++ lowerString port.protocol, "_" ++ port.name] sc
          else sc) sc) =
      TreeCache.getEntry lab [pr, nm] sc := by
  intro t
  induction t with
  | nil => intro sc _; rfl
  | cons x t ih =>
    intro sc hdist
    rw [List.foldl_cons]
    by_cases hx : (x.name != "" && x.protocol != "") = true
    · rw [if_pos hx]
      have hxn : x.name ≠ "" ∧ x.protocol ≠ "" := by
        constructor <;> intro hEq <;> simp [hEq] at hx
      rw [ih _ (fun y hy => hdist y (List.mem_cons_of_mem x hy))]
      apply getEntry_setEntry_frame
      rintro ⟨hpath, -⟩
      have hcomp : "_" ++ lowerString x.protocol = pr ∧ "_" ++ x.name = nm := by
        simpa using hpath
      exact hdist x (List.mem_cons_self x t) hxn.1 hxn.2
        (by rw [hcomp.1, hcomp.2])
    · rw [if_neg hx]
      exact ih _ (fun y hy => hdist y (List.mem_cons_of_mem x hy))

theorem portalFold_getEntry (kd : KubeDNS) (s : Service) :
    ∀ (ports : List ServicePort) (sc : TreeCache) (p : ServicePort),
      p ∈ ports → p.name ≠ "" → p.protocol ≠ "" →
      ((ports.filter (fun x => x.name != "" && x.protocol != "")).map
        (fun x => ("_" ++ lowerString x.protocol, "_" ++ x.name))).Nodup →
      TreeCache.getEntry (getSkyMsg s.clusterIP 0).2
        ["_" ++ lowerString p.protocol, "_" ++ p.name]
        (ports.foldl (fun sc port =>
          if port.name != "" && port.protocol != "" then
            TreeCache.setEntry (getSkyMsg s.clusterIP 0).2
              (generateSRVRecordValue kd s port.port [])
              ["_" ++ lowerString port.protocol, "_" ++ port.name] sc
          else sc) sc) =
      some (generateSRVRecordValue kd s p.port []) := by
  intro ports
  induction ports with
  | nil => intro sc p hp; cases hp
  | cons x t ih =>
    intro sc p hp hn hpr hnd
    rcases List.mem_cons.mp hp with rfl | hp'
    · have hx : (p.name != "" && p.protocol != "") = true := by simp [hn, hpr]
      rw [List.foldl_cons, if_pos hx]
      have hfilt : (p :: t).filter (fun x => x.name != "" && x.protocol != "") =
          p :: t.filter (fun x => x.name != "" && x.protocol != "") := by
        simp [List.filter_cons, hx]
      rw [hfilt, List.map_cons, List.nodup_cons] at hnd
      rw [portalFold_preserve kd s _ _ _ t _ ?hdist]
      · exact getEntry_setEntry_self _ _ _ _
      case hdist =>
        intro y hy hyn hypr hEq
        apply hnd.1
        have hmem : y ∈ t.filter (fun x => x.name != "" && x.protocol != "") :=
          List.mem_filter.mpr ⟨hy, by simp [hyn, hypr]⟩
        have hmem2 : ("_" ++ lowerString y.protocol, "_" ++ y.name) ∈
            (t.filter (fun x => x.name != "" && x.protocol != "")).map
              (fun x => ("_" ++ lowerString x.protocol, "_" ++ x.name)) := by
          simpa using List.mem_map_of_mem
            (fun x : ServicePort => ("_" ++ lowerString x.protocol, "_" ++ x.name)) hmem
        exact hEq ▸ hmem2
    · rw [List.foldl_cons]
      have hndt : ((t.filter (fun x => x.name != "" && x.protocol != "")).map
          (fun x => ("_" ++ lowerString x.protocol, "_" ++ x.name))).Nodup := by
        cases hxf : (x.name != "" && x.protocol != "") with
        | false =>
          rw [List.filter_cons, hxf] at hnd
          simpa using hnd
        | true =>
          rw [List.filter_cons, hxf] at hnd
          simp only [if_true, List.map_cons, List.nodup_cons] at hnd
          exact hnd.2
      exact ih _ p hp' hn hpr hndt

/-- Claim C2 (amended): adding a portal service with name `n`, namespace `ns`
and cluster IP `v` installs a fresh subcache at `domainPath ++ ["svc", ns]`
under key `n` whose entries map holds exactly one A-entry
`{host: v, port: 0}` — but its key is the hash label returned by `getSkyMsg`,
not the service name `n` — and, provided the named ports carry pairwise
distinct (protocol, name) pairs, one SRV-entry per named-and-protocoled port
`p` under that same hash key at path `["_" ++ lower(proto), "_" ++ p.name]`,
with host `n.ns.svc.<domain>` and port `p.port`. -/
theorem portalService_synthesis (kd : KubeDNS) (s : Service)
    (hnd : ((s.ports.filter (fun x => x.name != "" && x.protocol != "")).map
      (fun x => ("_" ++ lowerString x.protocol, "_" ++ x.name))).Nodup) :
    ((TreeCache.getSubCache (kd.domainPath ++ [serviceSubdomain, s.ns, s.name])
        (newPortalService kd s).cache).map TreeCache.entries =
      some [((getSkyMsg s.clusterIP 0).2, (getSkyMsg s.clusterIP 0).1)]) ∧
    (∀ p ∈ s.ports, p.name ≠ "" → p.protocol ≠ "" →
      TreeCache.getEntry (getSkyMsg s.clusterIP 0).2
        (kd.domainPath ++ [serviceSubdomain, s.ns, s.name,
          "_" ++ lowerString p.protocol, "_" ++ p.name])
        (newPortalService kd s).cache =
      some { Host := String.intercalate "." [s.name, s.ns, serviceSubdomain, kd.domain],
             Port := p.port, Priority := 10, Weight := 10, Ttl := 30 }) := by
  have hcache : (newPortalService kd s).cache = TreeCache.setSubCache s.name (portalSub kd s)
      (kd.domainPath ++ [serviceSubdomain, s.ns]) kd.cache := rfl
  have happ : kd.domainPath ++ [serviceSubdomain, s.ns, s.name] =
      (kd.domainPath ++ [serviceSubdomain, s.ns]) ++ [s.name] := by simp
  constructor
  · rw [hcache, happ, getSubCache_setSubCache_self, Option.map_some']
    rw [portalSub_entries]
  · intro p hp hn hpr
    have happ2 : kd.domainPath ++ [serviceSubdomain, s.ns, s.name,
        "_" ++ lowerString p.protocol, "_" ++ p.name] =
        ((kd.domainPath ++ [serviceSubdomain, s.ns]) ++ [s.name]) ++
          ["_" ++ lowerString p.protocol, "_" ++ p.name] := by simp
    rw [hcache, happ2,
      getEntry_append (getSubCache_setSubCache_self s.name (portalSub kd s) _ kd.cache)]
    rw [show portalSub kd s = s.ports.foldl (fun sc port =>
        if port.name != "" && port.protocol != "" then
          TreeCache.setEntry (getSkyMsg s.clusterIP 0).2
            (generateSRVRecordValue kd s port.port [])
            ["_" ++ lowerString port.protocol, "_" ++ port.name] sc
        else sc)
        (TreeCache.setEntry (getSkyMsg s.clusterIP 0).2 (getSkyMsg s.clusterIP 0).1 []
          NewTreeCache) from rfl]
    rw [portalFold_getEntry kd s s.ports _ p hp hn hpr hnd]
    rfl

/-- Witness for C2 at a concrete input: `testservice` in `default` with
cluster IP `1.2.3.4` and port `http`/`TCP`/80. -/
theorem portalService_synthesis_witness :
    (((testPortalSvc.ports.filter (fun x => x.name != "" && x.protocol != "")).map
      (fun x => ("_" ++ lowerString x.protocol, "_" ++ x.name))).Nodup) ∧
    ((TreeCache.getSubCache ((newKubeDNS "cluster.local.").domainPath ++
        [serviceSubdomain, testPortalSvc.ns, testPortalSvc.name])
        (newPortalService (newKubeDNS "cluster.local.") testPortalSvc).cache).map
        TreeCache.entries =
      some [((getSkyMsg testPortalSvc.clusterIP 0).2, (getSkyMsg testPortalSvc.clusterIP 0).1)]) ∧
    (TreeCache.getEntry (getSkyMsg testPortalSvc.clusterIP 0).2
        ((newKubeDNS "cluster.local.").domainPath ++ [serviceSubdomain, testPortalSvc.ns,
          testPortalSvc.name, "_" ++ lowerString "TCP", "_" ++ "http"])
        (newPortalService (newKubeDNS "cluster.local.") testPortalSvc).cache =
      some { Host := String.intercalate "." [testPortalSvc.name, testPortalSvc.ns,
               serviceSubdomain, (newKubeDNS "cluster.local.").domain],
             Port := 80, Priority := 10, Weight := 10, Ttl := 30 }) :=
  ⟨by decide,
   (portalService_synthesis (newKubeDNS "cluster.local.") testPortalSvc (by decide)).1,
   (portalService_synthesis (newKubeDNS "cluster.local.") testPortalSvc (by decide)).2
     { name := "http", protocol := "TCP", port := 80 } (by decide) (by decide) (by decide)⟩

/-- Counterexample to C2 as frozen: after adding the concrete portal service
`testservice`, the installed subcache node holds exactly one A-entry, yet a
lookup under the key `testservice` — the key the claim asserts for the
A-entry — finds nothing (the key actually used is the `getSkyMsg` hash
label), and the claimed SRV key fares the same. -/
theorem portalService_keyName_counterexample :
    ((TreeCache.getSubCache ["local", "cluster", "svc", "default", "testservice"]
        (newPortalService (newKubeDNS "cluster.local.") testPortalSvc).cache).map
        (fun nd => nd.entries.length) = some 1) ∧
    (TreeCache.getEntry "testservice" ["local", "cluster", "svc", "default", "testservice"]
      (newPortalService (newKubeDNS "cluster.local.") testPortalSvc).cache = none) ∧
    (TreeCache.getEntry "testservice"
      ["local", "cluster", "svc", "default", "testservice", "_tcp", "_http"]
      (newPortalService (newKubeDNS "cluster.local.") testPortalSvc).cache = none) := by
  refine ⟨?_, ?_, ?_⟩ <;> decide

/-- Claim C1 (amended): for a headless service, an endpoint address with no
explicit hostname and no valid annotation-provided hostname gets its A-entry
stored at node `domainPath ++ ["svc", ns, n]` under the label `getSkyMsg`
returns — the hex-encoded FNV-1a hash of the record's printed form — not under
the dash-encoded IP. -/
theorem headlessLabel_isHash (decoder : HostnameDecoder) (kd : KubeDNS) (e : Endpoints)
    (svc : Service) (ph : List (String × HostRecord)) (kd' : KubeDNS) (a : EndpointAddress)
    (hann : getPodHostnamesFromAnnotMap decoder e.annotations = some ph)
    (hok : generateRecordsForHeadlessService decoder kd e svc = .ok kd')
    (ha : a ∈ flatAddrs e.subsets)
    (hhost : getHostname a ph = none)
    (hnd : ((flatAddrs e.subsets).map (endpointLabel ph)).Nodup) :
    TreeCache.getEntry (getSkyMsg a.ip 0).2
      (kd.domainPath ++ [serviceSubdomain, svc.ns, svc.name]) kd'.cache =
    some { Host := a.ip, Port := 0, Priority := 10, Weight := 10, Ttl := 30 } := by
  have hc : kd'.cache = TreeCache.setSubCache svc.name
      (buildHeadlessSub kd svc ph e.subsets NewTreeCache)
      (kd.domainPath ++ [serviceSubdomain, svc.ns]) kd.cache := by
    have hthis := hok
    simp only [generateRecordsForHeadlessService, hann, Except.ok.injEq] at hthis
    rw [← hthis]
  have happ : kd.domainPath ++ [serviceSubdomain, svc.ns, svc.name] =
      (kd.domainPath ++ [serviceSubdomain, svc.ns]) ++ [svc.name] := by simp
  rw [hc, happ, TreeCache.getEntry, getSubCache_setSubCache_self]
  rw [show (match some (buildHeadlessSub kd svc ph e.subsets NewTreeCache) with
      | some nd => alistGet (getSkyMsg a.ip 0).2 nd.entries
      | none => none) =
      alistGet (getSkyMsg a.ip 0).2
        (buildHeadlessSub kd svc ph e.subsets NewTreeCache).entries from rfl]
  rw [buildHeadlessSub_entries]
  have h1 : (flatAddrs e.subsets).foldl
      (fun es a => alistPut (endpointLabel ph a) (getSkyMsg a.ip 0).1 es)
      NewTreeCache.entries =
      (flatAddrs e.subsets).map (fun a => (endpointLabel ph a, (getSkyMsg a.ip 0).1)) := by
    have hfresh := foldl_alistPut_fresh (endpointLabel ph) (fun x => (getSkyMsg x.ip 0).1)
      (flatAddrs e.subsets) [] hnd (by simp)
    simpa using hfresh
  rw [h1]
  have hlab : (getSkyMsg a.ip 0).2 = endpointLabel ph a := by
    simp [endpointLabel, hhost]
  rw [hlab]
  have h2 := alistGet_map_of_mem (endpointLabel ph) (fun x => (getSkyMsg x.ip 0).1)
    (flatAddrs e.subsets) a hnd ha
  simpa using h2

/-- Witness for C1 at a concrete input: address `10.0.0.1` of the test
headless service is reachable under its hash label at
`["local","cluster","svc","default","testservice"]`. -/
theorem headlessLabel_isHash_witness :
    (getPodHostnamesFromAnnotMap (fun _ => none) testHeadlessEndpoints.annotations = some []) ∧
    (generateRecordsForHeadlessService (fun _ => none)
      { newKubeDNS "cluster.local." with
        servicesStore := [(("default", "testservice"), testHeadlessSvc)],
        endpointsStore := [(("default", "testservice"), testHeadlessEndpoints)] }
      testHeadlessEndpoints testHeadlessSvc = .ok testHeadlessKd) ∧
    (({ ip := "10.0.0.1", hostname := "" } : EndpointAddress) ∈
      flatAddrs testHeadlessEndpoints.subsets) ∧
    (getHostname { ip := "10.0.0.1", hostname := "" } [] = none) ∧
    (((flatAddrs testHeadlessEndpoints.subsets).map (endpointLabel [])).Nodup) ∧
    (TreeCache.getEntry (getSkyMsg "10.0.0.1" 0).2
      (["local", "cluster"] ++ [serviceSubdomain, "default", "testservice"])
      testHeadlessKd.cache =
      some { Host := "10.0.0.1", Port := 0, Priority := 10, Weight := 10, Ttl := 30 }) :=
  ⟨rfl, rfl, by decide, rfl, by decide,
   headlessLabel_isHash (fun _ => none)
     { newKubeDNS "cluster.local." with
       servicesStore := [(("default", "testservice"), testHeadlessSvc)],
       endpointsStore := [(("default", "testservice"), testHeadlessEndpoints)] }
     testHeadlessEndpoints testHeadlessSvc [] testHeadlessKd
     { ip := "10.0.0.1", hostname := "" } rfl rfl (by decide) rfl (by decide)⟩

/-- Counterexample to C1 as frozen: after reconciling the test headless
service, the service node holds exactly two A-entries (one per address) and
the hash-label lookup finds the record for `10.0.0.1`, but nothing whatsoever
is stored under the dash-encoded label `10-0-0-1` the claim requires. -/
theorem headlessLabel_counterexample :
    (TreeCache.getEntry "10-0-0-1" ["local", "cluster", "svc", "default", "testservice"]
      testHeadlessKd.cache = none) ∧
    ((TreeCache.getSubCache ["local", "cluster", "svc", "default", "testservice"]
      testHeadlessKd.cache).map (fun nd => nd.entries.length) = some 2) ∧
    (TreeCache.getEntry (getSkyMsg "10.0.0.1" 0).2
      ["local", "cluster", "svc", "default", "testservice"] testHeadlessKd.cache =
      some { Host := "10.0.0.1", Port := 0, Priority := 10, Weight := 10, Ttl := 30 }) := by
  refine ⟨?_, ?_, ?_⟩ <;> decide

theorem getD_append_self (xs : List String) (y : String) (zs : List String) (d : String) :
    (xs ++ y :: zs).getD xs.length d = y := by
  induction xs with
  | nil => rfl
  | cons x xs ih => simpa [List.getD] using ih

theorem wildcardValues_of_explore (path : List String) (c : TreeCache) (sub : TreeCache)
    (h : TreeCache.wildcardExplore path [c] = ([], [sub])) :
    TreeCache.getValuesForPathWithWildcards path c = sub.entries.map Prod.snd := by
  simp [TreeCache.getValuesForPathWithWildcards, h]

theorem notMem_star_svcPath {D : List String} {ns : String} (hstar : "*" ∉ D)
    (hns : ns ≠ "*") : "*" ∉ D ++ [serviceSubdomain, ns] := by
  intro hmem
  rcases List.mem_append.mp hmem with hm | hm
  · exact hstar hm
  · simp only [List.mem_cons, List.not_mem_nil, or_false] at hm
    rcases hm with hm | hm
    · exact absurd hm (by decide)
    · exact hns hm.symm

/-- The wildcard result of a service-FQDN query right after that service's
subcache was swapped in: exactly the direct entries of the fresh subcache. -/
theorem wildcardValues_after_subswap (D : List String) (ns n : String) (sub c : TreeCache)
    (hstar : "*" ∉ D) (hns : ns ≠ "*") (hn : n ≠ "*")
    (hshadow : TreeCache.getEntry n (D ++ [serviceSubdomain, ns]) c = none) :
    TreeCache.getValuesForPathWithWildcards (D ++ [serviceSubdomain, ns, n])
      (TreeCache.setSubCache n sub (D ++ [serviceSubdomain, ns]) c) =
    sub.entries.map Prod.snd := by
  apply wildcardValues_of_explore
  have hP : D ++ [serviceSubdomain, ns, n] = (D ++ [serviceSubdomain, ns]) ++ [n] := by simp
  rw [hP]
  rw [wildcardExplore_setSubCache [n] (by simp) n sub (D ++ [serviceSubdomain, ns]) c
    (notMem_star_svcPath hstar hns)]
  have h0 := alistGet_entries_subCacheAt n (D ++ [serviceSubdomain, ns]) c
  cases hsc : subCacheAt (D ++ [serviceSubdomain, ns]) c with
  | node chn ents =>
    rw [hsc] at h0
    have hents : alistGet n ents = none := by
      simpa [TreeCache.entries] using h0.trans hshadow
    simp [TreeCache.wildcardExplore, if_neg hn, TreeCache.entries, TreeCache.childNodes,
      hents, alistGet_put_same]

/-- Claim C3 (amended): once a headless service's endpoints are reconciled,
the wildcard query for its FQDN returns one A-record per endpoint address —
provided the endpoint labels are pairwise distinct (duplicate IPs, or
colliding labels, overwrite one another in the entries map) — and the hosts of
those records are exactly the endpoint IPs, address by address. -/
theorem headlessRecords_query (decoder : HostnameDecoder) (kd : KubeDNS) (e : Endpoints)
    (svc : Service) (ph : List (String × HostRecord)) (kd' : KubeDNS) (q : String)
    (hann : getPodHostnamesFromAnnotMap decoder e.annotations = some ph)
    (hok : generateRecordsForHeadlessService decoder kd e svc = .ok kd')
    (hnd : ((flatAddrs e.subsets).map (endpointLabel ph)).Nodup)
    (hstar : "*" ∉ kd.domainPath) (hns : svc.ns ≠ "*") (hn : svc.name ≠ "*")
    (hflat : flatAddrs e.subsets ≠ [])
    (hshadow : TreeCache.getEntry svc.name (kd.domainPath ++ [serviceSubdomain, svc.ns])
      kd.cache = none)
    (hq : reverseArray (splitDots (trimDots q.data)) =
      kd.domainPath ++ [serviceSubdomain, svc.ns, svc.name]) :
    Records kd' q false =
      .ok ((flatAddrs e.subsets).map (fun a =>
        { Host := a.ip, Port := 0, Priority := 10, Weight := 10, Ttl := 30 })) ∧
    ((flatAddrs e.subsets).map (fun a =>
      ({ Host := a.ip, Port := 0, Priority := 10, Weight := 10, Ttl := 30 } : SkyService))).length =
      (flatAddrs e.subsets).length ∧
    ((flatAddrs e.subsets).map (fun a =>
      ({ Host := a.ip, Port := 0, Priority := 10, Weight := 10, Ttl := 30 } : SkyService))).map
        SkyService.Host =
      (flatAddrs e.subsets).map EndpointAddress.ip := by
  have hkd' : kd' = { kd with cache := (TreeCache.setSubCache svc.name
      (buildHeadlessSub kd svc ph e.subsets NewTreeCache)
      (kd.domainPath ++ [serviceSubdomain, svc.ns]) kd.cache) } := by
    have hthis := hok
    simp only [generateRecordsForHeadlessService, hann, Except.ok.injEq] at hthis
    exact hthis.symm
  refine ⟨?_, by simp, by simp⟩
  rw [Records, hq, hkd']
  have hpod : isPodRecord { kd with cache := (TreeCache.setSubCache svc.name
      (buildHeadlessSub kd svc ph e.subsets NewTreeCache)
      (kd.domainPath ++ [serviceSubdomain, svc.ns]) kd.cache) }
      (kd.domainPath ++ [serviceSubdomain, svc.ns, svc.name]) = false := by
    have hD : ({ kd with cache := (TreeCache.setSubCache svc.name
        (buildHeadlessSub kd svc ph e.subsets NewTreeCache)
        (kd.domainPath ++ [serviceSubdomain, svc.ns]) kd.cache) } : KubeDNS).domainPath =
        kd.domainPath := rfl
    simp only [isPodRecord, hD, getD_append_self]
    simp [serviceSubdomain]
  rw [recordsPath_nonPod _ _ _ hpod]
  rw [if_neg (by simp : ¬((false : Bool) = true))]
  rw [show ({ kd with cache := (TreeCache.setSubCache svc.name
      (buildHeadlessSub kd svc ph e.subsets NewTreeCache)
      (kd.domainPath ++ [serviceSubdomain, svc.ns]) kd.cache) } : KubeDNS).cache =
      TreeCache.setSubCache svc.name (buildHeadlessSub kd svc ph e.subsets NewTreeCache)
      (kd.domainPath ++ [serviceSubdomain, svc.ns]) kd.cache from rfl]
  rw [wildcardValues_after_subswap kd.domainPath svc.ns svc.name _ kd.cache hstar hns hn hshadow]
  have hsubent : (buildHeadlessSub kd svc ph e.subsets NewTreeCache).entries =
      (flatAddrs e.subsets).map (fun a => (endpointLabel ph a, (getSkyMsg a.ip 0).1)) := by
    rw [buildHeadlessSub_entries]
    have hfresh := foldl_alistPut_fresh (endpointLabel ph) (fun x => (getSkyMsg x.ip 0).1)
      (flatAddrs e.subsets) [] hnd (by simp)
    simpa using hfresh
  rw [hsubent, List.map_map]
  have hne : ¬((((flatAddrs e.subsets).map
      (Prod.snd ∘ fun a => (endpointLabel ph a, (getSkyMsg a.ip 0).1))).isEmpty) = true) := by
    simp [List.isEmpty_iff, hflat]
  rw [if_neg hne]
  simp [Function.comp, getSkyMsg]

/-- Witness for C3 at a concrete input: the two-address test endpoints yield
exactly two A-records with hosts `10.0.0.1` and `10.0.0.2`. -/
theorem headlessRecords_query_witness :
    (Records testHeadlessKd "testservice.default.svc.cluster.local." false =
      .ok [{ Host := "10.0.0.1", Port := 0, Priority := 10, Weight := 10, Ttl := 30 },
           { Host := "10.0.0.2", Port := 0, Priority := 10, Weight := 10, Ttl := 30 }]) ∧
    ((flatAddrs testHeadlessEndpoints.subsets).length = 2) :=
  ⟨(headlessRecords_query (fun _ => none)
      { newKubeDNS "cluster.local." with
        servicesStore := [(("default", "testservice"), testHeadlessSvc)],
        endpointsStore := [(("default", "testservice"), testHeadlessEndpoints)] }
      testHeadlessEndpoints testHeadlessSvc [] testHeadlessKd
      "testservice.default.svc.cluster.local."
      rfl rfl (by decide) (by decide) (by decide) (by decide) (by decide) (by decide)
      (by decide)).1,
   by decide⟩

/-- Counterexample to C3 as frozen: an endpoints object whose two subsets
carry the same IP has two addresses in total, yet the FQDN query returns a
single record — duplicate labels overwrite each other in the entries map, so
the count is not `|addresses(E)|` when addresses repeat. -/
theorem headlessRecords_count_counterexample :
    ((flatAddrs dupHeadlessEndpoints.subsets).length = 2) ∧
    (Records dupHeadlessKd "testservice.default.svc.cluster.local." false =
      .ok [{ Host := "10.0.0.1", Port := 0, Priority := 10, Weight := 10, Ttl := 30 }]) := by
  constructor
  · decide
  · rfl

theorem records_of_explored (kd₂ : KubeDNS) (P : List String) (sub : TreeCache)
    (hpod : isPodRecord kd₂ P = false)
    (hexp : TreeCache.wildcardExplore P [kd₂.cache] = ([], [sub]))
    (hne : sub.entries ≠ []) :
    recordsPath kd₂ P false = .ok (sub.entries.map Prod.snd) := by
  rw [recordsPath_nonPod _ _ _ hpod, if_neg (by simp : ¬((false : Bool) = true))]
  rw [wildcardValues_of_explore P kd₂.cache sub hexp]
  rw [if_neg (by simp [List.isEmpty_iff, hne])]

/-- Claim C4: adding a portal service `n` in namespace `ns` to a fresh
authority makes the five query shapes `n.ns.svc.<domain>`, `n.*.svc.<domain>`,
`n.ns.*.<domain>`, `n.*.*.<domain>` and `*.n.ns.svc.<domain>` all resolve, in
wildcard mode, to the same single-record set: one record whose host is the
cluster IP. -/
theorem portal_equivalentQueries (decoder : HostnameDecoder) (domain : String) (s : Service)
    (q1 q2 q3 q4 q5 : String)
    (hip : IsServiceIPSet s = true)
    (hn : s.name ≠ "*")
    (h1 : splitDots (trimDots q1.data) =
      [s.name, s.ns, serviceSubdomain] ++ splitDots (trimDots domain.data))
    (h2 : splitDots (trimDots q2.data) =
      [s.name, "*", serviceSubdomain] ++ splitDots (trimDots domain.data))
    (h3 : splitDots (trimDots q3.data) =
      [s.name, s.ns, "*"] ++ splitDots (trimDots domain.data))
    (h4 : splitDots (trimDots q4.data) =
      [s.name, "*", "*"] ++ splitDots (trimDots domain.data))
    (h5 : splitDots (trimDots q5.data) =
      ["*", s.name, s.ns, serviceSubdomain] ++ splitDots (trimDots domain.data)) :
    (Records (newService decoder (newKubeDNS domain) s) q1 false =
      .ok [{ Host := s.clusterIP, Port := 0, Priority := 10, Weight := 10, Ttl := 30 }]) ∧
    (Records (newService decoder (newKubeDNS domain) s) q2 false =
      .ok [{ Host := s.clusterIP, Port := 0, Priority := 10, Weight := 10, Ttl := 30 }]) ∧
    (Records (newService decoder (newKubeDNS domain) s) q3 false =
      .ok [{ Host := s.clusterIP, Port := 0, Priority := 10, Weight := 10, Ttl := 30 }]) ∧
    (Records (newService decoder (newKubeDNS domain) s) q4 false =
      .ok [{ Host := s.clusterIP, Port := 0, Priority := 10, Weight := 10, Ttl := 30 }]) ∧
    (Records (newService decoder (newKubeDNS domain) s) q5 false =
      .ok [{ Host := s.clusterIP, Port := 0, Priority := 10, Weight := 10, Ttl := 30 }]) := by
  have hkd : newService decoder (newKubeDNS domain) s =
      { newKubeDNS domain with cache := (TreeCache.setSubCache s.name
          (portalSub (newKubeDNS domain) s)
          ((splitDots (trimDots domain.data)).reverse ++ [serviceSubdomain, s.ns])
          NewTreeCache) } := by
    rw [newService_portal_cache decoder (newKubeDNS domain) s hip]
    rfl
  have hcache : ({ newKubeDNS domain with cache := (TreeCache.setSubCache s.name
      (portalSub (newKubeDNS domain) s)
      ((splitDots (trimDots domain.data)).reverse ++ [serviceSubdomain, s.ns])
      NewTreeCache) } : KubeDNS).cache =
      mkChain ((splitDots (trimDots domain.data)).reverse ++ [serviceSubdomain, s.ns])
        (TreeCache.node [(s.name, portalSub (newKubeDNS domain) s)] []) :=
    setSubCache_empty_eq_mkChain _ _ _
  have hlast : TreeCache.wildcardExplore [s.name]
      [TreeCache.node [(s.name, portalSub (newKubeDNS domain) s)] []] =
      ([], [portalSub (newKubeDNS domain) s]) := by
    simp [TreeCache.wildcardExplore, if_neg hn, TreeCache.entries, TreeCache.childNodes,
      alistGet]
  have hrec : (portalSub (newKubeDNS domain) s).entries.map Prod.snd =
      [{ Host := s.clusterIP, Port := 0, Priority := 10, Weight := 10, Ttl := 30 }] := by
    rw [portalSub_entries]
    rfl
  have hentne : (portalSub (newKubeDNS domain) s).entries ≠ [] := by
    rw [portalSub_entries]
    simp
  have hpodF : ∀ (y : String) (rest : List String), y ≠ "pod" →
      isPodRecord { newKubeDNS domain with cache := (TreeCache.setSubCache s.name
        (portalSub (newKubeDNS domain) s)
        ((splitDots (trimDots domain.data)).reverse ++ [serviceSubdomain, s.ns])
        NewTreeCache) } ((splitDots (trimDots domain.data)).reverse ++ y :: rest) = false := by
    intro y rest hy
    have hb : (y == "pod") = false := by
      simp [hy]
    have hD2 : (newKubeDNS domain).domainPath =
        (splitDots (trimDots domain.data)).reverse := rfl
    simp only [isPodRecord, hD2, getD_append_self, hb]
    simp
  refine ⟨?_, ?_, ?_, ?_, ?_⟩
  · rw [Records, h1, hkd]
    rw [show reverseArray ([s.name, s.ns, serviceSubdomain] ++ splitDots (trimDots domain.data)) =
        (splitDots (trimDots domain.data)).reverse ++
          serviceSubdomain :: [s.ns, s.name] by simp [reverseArray]]
    rw [records_of_explored _ _ (portalSub (newKubeDNS domain) s)
      (hpodF serviceSubdomain [s.ns, s.name] (by decide)) ?exp1 hentne, hrec]
    case exp1 =>
      rw [hcache]
      rw [show (splitDots (trimDots domain.data)).reverse ++
          serviceSubdomain :: [s.ns, s.name] =
          ((splitDots (trimDots domain.data)).reverse ++ [serviceSubdomain, s.ns]) ++
            [s.name] by simp]
      rw [wildcardExplore_chain [s.name] (by simp)]
      exact hlast
  · rw [Records, h2, hkd]
    rw [show reverseArray ([s.name, "*", serviceSubdomain] ++ splitDots (trimDots domain.data)) =
        (splitDots (trimDots domain.data)).reverse ++
          serviceSubdomain :: ["*", s.name] by simp [reverseArray]]
    rw [records_of_explored _ _ (portalSub (newKubeDNS domain) s)
      (hpodF serviceSubdomain ["*", s.name] (by decide)) ?exp2 hentne, hrec]
    case exp2 =>
      rw [hcache]
      rw [show ((splitDots (trimDots domain.data)).reverse ++ [serviceSubdomain, s.ns]) =
          ((splitDots (trimDots domain.data)).reverse ++ [serviceSubdomain]) ++ [s.ns] by simp,
        mkChain_append]
      rw [show (splitDots (trimDots domain.data)).reverse ++
          serviceSubdomain :: ["*", s.name] =
          ((splitDots (trimDots domain.data)).reverse ++ [serviceSubdomain]) ++
            ["*", s.name] by simp]
      rw [wildcardExplore_chain ["*", s.name] (by simp)]
      rw [show TreeCache.wildcardExplore ["*", s.name]
          [mkChain [s.ns] (TreeCache.node [(s.name, portalSub (newKubeDNS domain) s)] [])] =
          TreeCache.wildcardExplore [s.name]
            [TreeCache.node [(s.name, portalSub (newKubeDNS domain) s)] []] by
        simp [TreeCache.wildcardExplore, mkChain, TreeCache.childNodes]]
      exact hlast
  · rw [Records, h3, hkd]
    rw [show reverseArray ([s.name, s.ns, "*"] ++ splitDots (trimDots domain.data)) =
        (splitDots (trimDots domain.data)).reverse ++
          "*" :: [s.ns, s.name] by simp [reverseArray]]
    rw [records_of_explored _ _ (portalSub (newKubeDNS domain) s)
      (hpodF "*" [s.ns, s.name] (by decide)) ?exp3 hentne, hrec]
    case exp3 =>
      rw [hcache]
      rw [mkChain_append]
      rw [show (splitDots (trimDots domain.data)).reverse ++ "*" :: [s.ns, s.name] =
          (splitDots (trimDots domain.data)).reverse ++ ["*", s.ns, s.name] from rfl]
      rw [wildcardExplore_chain ["*", s.ns, s.name] (by simp)]
      rw [show TreeCache.wildcardExplore ["*", s.ns, s.name]
          [mkChain [serviceSubdomain, s.ns]
            (TreeCache.node [(s.name, portalSub (newKubeDNS domain) s)] [])] =
          TreeCache.wildcardExplore [s.ns, s.name]
            [mkChain [s.ns] (TreeCache.node [(s.name, portalSub (newKubeDNS domain) s)] [])] by
        simp [TreeCache.wildcardExplore, mkChain, TreeCache.childNodes]]
      rw [show TreeCache.wildcardExplore [s.ns, s.name]
          [mkChain [s.ns] (TreeCache.node [(s.name, portalSub (newKubeDNS domain) s)] [])] =
          TreeCache.wildcardExplore [s.name]
            [TreeCache.node [(s.name, portalSub (newKubeDNS domain) s)] []] by
        by_cases hx : s.ns = "*"
        · simp [hx, TreeCache.wildcardExplore, mkChain, TreeCache.childNodes]
        · simp [TreeCache.wildcardExplore, if_neg hx, mkChain, TreeCache.childNodes, alistGet]]
      exact hlast
  · rw [Records, h4, hkd]
    rw [show reverseArray ([s.name, "*", "*"] ++ splitDots (trimDots domain.data)) =
        (splitDots (trimDots domain.data)).reverse ++
          "*" :: ["*", s.name] by simp [reverseArray]]
    rw [records_of_explored _ _ (portalSub (newKubeDNS domain) s)
      (hpodF "*" ["*", s.name] (by decide)) ?exp4 hentne, hrec]
    case exp4 =>
      rw [hcache]
      rw [mkChain_append]
      rw [show (splitDots (trimDots domain.data)).reverse ++ "*" :: ["*", s.name] =
          (splitDots (trimDots domain.data)).reverse ++ ["*", "*", s.name] from rfl]
      rw [wildcardExplore_chain ["*", "*", s.name] (by simp)]
      rw [show TreeCache.wildcardExplore ["*", "*", s.name]
          [mkChain [serviceSubdomain, s.ns]
            (TreeCache.node [(s.name, portalSub (newKubeDNS domain) s)] [])] =
          TreeCache.wildcardExplore ["*", s.name]
            [mkChain [s.ns] (TreeCache.node [(s.name, portalSub (newKubeDNS domain) s)] [])] by
        simp [TreeCache.wildcardExplore, mkChain, TreeCache.childNodes]]
      rw [show TreeCache.wildcardExplore ["*", s.name]
          [mkChain [s.ns] (TreeCache.node [(s.name, portalSub (newKubeDNS domain) s)] [])] =
          TreeCache.wildcardExplore [s.name]
            [TreeCache.node [(s.name, portalSub (newKubeDNS domain) s)] []] by
        simp [TreeCache.wildcardExplore, mkChain, TreeCache.childNodes]]
      exact hlast
  · rw [Records, h5, hkd]
    rw [show reverseArray (["*", s.name, s.ns, serviceSubdomain] ++
          splitDots (trimDots domain.data)) =
        (splitDots (trimDots domain.data)).reverse ++
          serviceSubdomain :: [s.ns, s.name, "*"] by simp [reverseArray]]
    rw [records_of_explored _ _ (portalSub (newKubeDNS domain) s)
      (hpodF serviceSubdomain [s.ns, s.name, "*"] (by decide)) ?exp5 hentne, hrec]
    case exp5 =>
      rw [hcache]
      rw [show (splitDots (trimDots domain.data)).reverse ++
          serviceSubdomain :: [s.ns, s.name, "*"] =
          ((splitDots (trimDots domain.data)).reverse ++ [serviceSubdomain, s.ns]) ++
            [s.name, "*"] by simp]
      rw [wildcardExplore_chain [s.name, "*"] (by simp)]
      rw [show TreeCache.wildcardExplore [s.name, "*"]
          [TreeCache.node [(s.name, portalSub (newKubeDNS domain) s)] []] =
          TreeCache.wildcardExplore ["*"] [portalSub (newKubeDNS domain) s] by
        simp [TreeCache.wildcardExplore, if_neg hn, TreeCache.childNodes, TreeCache.entries,
          alistGet]]
      simp [TreeCache.wildcardExplore]

/-- Witness for C4 at a concrete input: `testservice`/`default` with cluster
IP `1.2.3.4` under domain `cluster.local.`, all five concrete query strings. -/
theorem portal_equivalentQueries_witness :
    (IsServiceIPSet testPortalSvc = true) ∧
    (Records (newService (fun _ => none) (newKubeDNS "cluster.local.") testPortalSvc)
      "testservice.default.svc.cluster.local." false =
      .ok [{ Host := "1.2.3.4", Port := 0, Priority := 10, Weight := 10, Ttl := 30 }]) ∧
    (Records (newService (fun _ => none) (newKubeDNS "cluster.local.") testPortalSvc)
      "testservice.*.svc.cluster.local." false =
      .ok [{ Host := "1.2.3.4", Port := 0, Priority := 10, Weight := 10, Ttl := 30 }]) ∧
    (Records (newService (fun _ => none) (newKubeDNS "cluster.local.") testPortalSvc)
      "testservice.default.*.cluster.local." false =
      .ok [{ Host := "1.2.3.4", Port := 0, Priority := 10, Weight := 10, Ttl := 30 }]) ∧
    (Records (newService (fun _ => none) (newKubeDNS "cluster.local.") testPortalSvc)
      "testservice.*.*.cluster.local." false =
      .ok [{ Host := "1.2.3.4", Port := 0, Priority := 10, Weight := 10, Ttl := 30 }]) ∧
    (Records (newService (fun _ => none) (newKubeDNS "cluster.local.") testPortalSvc)
      "*.testservice.default.svc.cluster.local." false =
      .ok [{ Host := "1.2.3.4", Port := 0, Priority := 10, Weight := 10, Ttl := 30 }]) := by
  have h := portal_equivalentQueries (fun _ => none) "cluster.local." testPortalSvc
    "testservice.default.svc.cluster.local." "testservice.*.svc.cluster.local."
    "testservice.default.*.cluster.local." "testservice.*.*.cluster.local."
    "*.testservice.default.svc.cluster.local."
    (by decide) (by decide)
    (by decide) (by decide) (by decide) (by decide) (by decide)
  exact ⟨by decide, h.1, h.2.1, h.2.2.1, h.2.2.2.1, h.2.2.2.2⟩
